import Mathlib

/-!
Verification of the binding/synchronization layer of `bevy_fmod_simple`
(`src/plugin.rs`, `src/bridge.rs`).

Shallow embedding conventions:
* `f32` scalars are modelled as rationals (`ℚ`); the claims settled here
  concern branch structure and exact products/quotients, not rounding.
* Bevy entities are natural numbers; FMOD engine handles are `Int` with
  `-1` as the failure sentinel, exactly as in the bridge.
* `HashMap<Entity, EngineId>` resources are modelled as association lists
  with unique keys (insertion replaces); `HashSet<Entity>` as a list used
  as a set.
* Each Bevy system becomes a pure function from its queried inputs and the
  resources it mutates to the updated resources plus the list of engine
  calls it issues (the trace).  The opaque FMOD engine's replies
  (`play_channel` ids, `is_playing_channel`) are oracle functions supplied
  as frame inputs.
* Bevy `Commands` effects (despawn, component insert/remove) are collected
  into explicit output lists; `commands.get_entity` is modelled by a
  liveness check against the set of currently existing entities.
-/

/-- Bevy entity identifier (opaque, assigned by the scene graph). -/
abbrev Entity := Nat

/-- `type EngineId = i32` from plugin.rs: engine handle, `-1` on failure. -/
abbrev EngineId := Int

/-- `bridge::Vector` / bevy `Vec3`, with `f32` fields modelled as `ℚ`. -/
structure Vec3q where
  x : ℚ
  y : ℚ
  z : ℚ
  deriving DecidableEq, Repr

def Vec3q.zero : Vec3q := ⟨0, 0, 0⟩

/-- Componentwise subtraction (`Vec3 - Vec3`). -/
def Vec3q.sub (a b : Vec3q) : Vec3q := ⟨a.x - b.x, a.y - b.y, a.z - b.z⟩

/-- Division of a vector by a scalar (`Vec3 / f32`). -/
def Vec3q.divQ (a : Vec3q) (q : ℚ) : Vec3q := ⟨a.x / q, a.y / q, a.z / q⟩

/-- Rust `f32::clamp(lo, hi)`. -/
def clampQ (v lo hi : ℚ) : ℚ := min (max v lo) hi

/-- `AudioParameters` component (plugin.rs); `priority: u8`. -/
structure AudioParameters where
  volume : ℚ
  speed : ℚ
  priority : Nat
  min_distance : ℚ
  max_distance : ℚ
  deriving DecidableEq, Repr

/-- `impl Default for AudioParameters`. -/
def AudioParameters.default : AudioParameters :=
  { volume := 1, speed := 1, priority := 128, min_distance := 8/10, max_distance := 20 }

/-- `AudioSource` asset: the engine file handle plus default parameters
(the `randomize` cargo feature is off, so `params()` returns `params`). -/
structure AudioSource where
  id : EngineId
  params : AudioParameters
  deriving DecidableEq, Repr

/-- `bridge::ChannelParams`. -/
structure ChannelParams where
  file_id : EngineId
  group_id : Int
  priority : Int
  is_positional : Bool
  position : Vec3q
  velocity : Vec3q
  min_distance : ℚ
  max_distance : ℚ
  looped : Bool
  volume : ℚ
  pitch : ℚ
  startup_delay : Int
  deriving DecidableEq, Repr

/-- `bridge::ChannelUpdateParams`. -/
structure ChannelUpdateParams where
  set_position : Bool
  position : Vec3q
  velocity : Vec3q
  set_volume_etc : Bool
  volume : ℚ
  pitch : ℚ
  priority : Int
  deriving DecidableEq, Repr

/-- `ChannelUpdateParams::default()` (all fields zeroed). -/
def ChannelUpdateParams.default : ChannelUpdateParams :=
  { set_position := false, position := Vec3q.zero, velocity := Vec3q.zero
  , set_volume_etc := false, volume := 0, pitch := 0, priority := 0 }

/-- `bridge::ListenerParams`. -/
structure ListenerParams where
  position : Vec3q
  velocity : Vec3q
  forward : Vec3q
  up : Vec3q
  deriving DecidableEq, Repr

/-- `bridge::GroupParams`. -/
structure GroupParams where
  user_id : Int
  volume : ℚ
  deriving DecidableEq, Repr

/-- `bridge::EngineParams`. -/
structure EngineParams where
  doppler_scale : ℚ
  distance_scale : ℚ
  rolloff_scale : ℚ
  max_world_size : ℚ
  deriving DecidableEq, Repr

/-- `bridge::Geometry`; a polygon is its vertex list. -/
structure Geometry where
  direct_occlusion : ℚ
  reverb_occlusion : ℚ
  polygons : List (List Vec3q)
  deriving DecidableEq, Repr

/-- `bridge::Reverb`. -/
structure Reverb where
  min_dist : ℚ
  max_dist : ℚ
  position : Vec3q
  decay_time : ℚ
  early_delay : ℚ
  late_delay : ℚ
  hf_reference : ℚ
  hf_decay_ratio : ℚ
  diffusion : ℚ
  density : ℚ
  low_shelf_frequency : ℚ
  low_shelf_gain : ℚ
  high_cut : ℚ
  early_late_mix : ℚ
  wet_level : ℚ
  deriving DecidableEq, Repr

/-- `bridge::InitParams`, the two bounds handed to `bridge::create`.
Values are `usize` in the settings, modelled as `Nat` (the `as i32`
cast is out of scope of the clamping claims). -/
structure InitParams where
  max_virtual_channels : Nat
  max_active_channels : Nat
  deriving DecidableEq, Repr

/-- `AudioEngineInitSettings` (plugin.rs): user-configured bounds. -/
structure AudioEngineInitSettings where
  max_virtual_channels : Nat
  max_active_channels : Nat
  deriving DecidableEq, Repr

/-- The argument `FmodAudioPlugin::build` passes to `bridge::create`
(plugin.rs lines 608-615): virtual channels clamped by `.min(4095)`,
active channels clamped by `.min(self.settings.max_virtual_channels)`. -/
def buildInitParams (s : AudioEngineInitSettings) : InitParams :=
  { max_virtual_channels := min s.max_virtual_channels 4095
  , max_active_channels := min s.max_active_channels s.max_virtual_channels }

/-- One call the binding layer issues against the bridge surface.  The
constructors are exactly the mutating `Bridge` methods used by the
per-frame systems; note there is no geometry- or reverb-update operation
in the bridge at all, only add and free. -/
inductive EngineOp where
  | playChannel (p : ChannelParams)
  | freeChannel (id : EngineId)
  | updateChannel (id : EngineId) (p : ChannelUpdateParams)
  | updateListener (p : ListenerParams)
  | updateGroup (p : GroupParams)
  | updateEngine (p : EngineParams)
  | addGeometry (g : Geometry)
  | freeGeometry (id : EngineId)
  | addReverb (r : Reverb)
  | freeReverb (id : EngineId)
  | update
  deriving DecidableEq, Repr

/-- Whether an op is a `play_channel` call. -/
def EngineOp.isPlayChannel : EngineOp → Bool
  | .playChannel _ => true
  | _ => false

/-- Whether an op touches the geometry part of the engine. -/
def EngineOp.isGeometryOp : EngineOp → Bool
  | .addGeometry _ => true
  | .freeGeometry _ => true
  | _ => false

--
-- association-list model of `HashMap<Entity, V>`
--

/-- `HashMap::get`. -/
def alookup {V : Type} (k : Entity) : List (Entity × V) → Option V
  | [] => none
  | (k', v) :: rest => if k' = k then some v else alookup k rest

/-- `HashMap::remove` (drops the key's entry). -/
def aremove {V : Type} (k : Entity) (l : List (Entity × V)) : List (Entity × V) :=
  l.filter (fun p => p.1 ≠ k)

/-- `HashMap::insert` (replaces any existing entry for the key). -/
def ainsert {V : Type} (k : Entity) (v : V) (l : List (Entity × V)) : List (Entity × V) :=
  (k, v) :: aremove k l

/-- `HashSet::insert`. -/
def sinsert (e : Entity) (s : List Entity) : List Entity :=
  if e ∈ s then s else e :: s

--
-- settings propagation: `update_engine_settings`
--

/-- `AudioGroupParameters`. -/
structure AudioGroupParameters where
  volume : ℚ
  deriving DecidableEq, Repr

/-- `AudioEngineSettings`. -/
structure AudioEngineSettings where
  doppler_scale : ℚ
  distance_scale : ℚ
  rolloff_scale : ℚ
  max_world_size : ℚ
  deriving DecidableEq, Repr

/-- `AudioSettings` resource; `groups: HashMap<AudioGroup, _>` becomes an
association list over the group's `i32` user id. -/
structure AudioSettings where
  groups : List (Int × AudioGroupParameters)
  master_volume : ℚ
  enabled : Bool
  engine : AudioEngineSettings
  deriving DecidableEq, Repr

/-- `update_engine_settings` (plugin.rs lines 776-799): computes the
effective master volume (`enabled.then_some(master).unwrap_or(0.)`),
pushes one `update_group` per configured group with volume
`params.volume * master_volume`, then pushes the global engine params. -/
def update_engine_settings (s : AudioSettings) : List EngineOp :=
  let master_volume : ℚ := if s.enabled then s.master_volume else 0
  (s.groups.map fun g =>
    EngineOp.updateGroup { user_id := g.1, volume := g.2.volume * master_volume })
  ++ [EngineOp.updateEngine
      { doppler_scale := s.engine.doppler_scale
      , distance_scale := s.engine.distance_scale
      , rolloff_scale := s.engine.rolloff_scale
      , max_world_size := s.engine.max_world_size }]

--
-- listener update: `update_listener`
--

/-- `ListenerData` (the system-local state of `update_listener`). -/
structure ListenerData where
  data : ListenerParams
  old_position : Option Vec3q
  deriving DecidableEq, Repr

/-- `impl Default for ListenerData`. -/
def ListenerData.default : ListenerData :=
  { data := { position := Vec3q.zero, velocity := Vec3q.zero
            , forward := ⟨0, 0, -1⟩, up := ⟨0, 1, 0⟩ }
  , old_position := none }

/-- What the `Query<&GlobalTransform, With<AudioListener>>` yields when a
listener exists: translation, forward and up of its world transform. -/
structure ListenerQuery where
  position : Vec3q
  forward : Vec3q
  up : Vec3q
  deriving DecidableEq, Repr

/-- `update_listener` (plugin.rs lines 739-770).  `dt` is
`time.delta_seconds()`; the guard `time.delta() != default()` becomes
`dt ≠ 0`.  Returns the updated local state and the single
`update_listener` engine call pushed unconditionally at the end. -/
def update_listener (q : Option ListenerQuery) (dt : ℚ) (ld : ListenerData) :
    ListenerData × List EngineOp :=
  match q with
  | some t =>
      let position := t.position
      let velocity :=
        if dt ≠ 0 then (position.sub (ld.old_position.getD position)).divQ dt
        else Vec3q.zero
      let data : ListenerParams :=
        { position := position, velocity := velocity
        , forward := t.forward, up := t.up }
      (⟨data, some position⟩, [EngineOp.updateListener data])
  | none =>
      let data := { ld.data with velocity := Vec3q.zero }
      (⟨data, none⟩, [EngineOp.updateListener data])

--
-- playback: `play_audio`, `stop_audio`, `detect_stopped_audio`,
-- `update_spatial_audio`, `update_audio_parameters`
--

/-- `AudioInstanceMapping` resource. -/
structure AudioInstanceMapping where
  ids : List (Entity × EngineId)
  just_removed : List Entity
  deriving DecidableEq, Repr

/-- `AudioInstance` component (the retained `_source` handle is kept as
the asset key it wraps). -/
structure AudioInstance where
  id : EngineId
  old_position : Vec3q
  source : Nat
  deriving DecidableEq, Repr

/-- One row of the `Added<Handle<AudioSource>>` query in `play_audio`:
the entity plus its optional components at the time the handle was added.
`startup_delay` is the `AudioStartupDelay` duration in microseconds. -/
structure NewAudioRow where
  entity : Entity
  source : Nat
  transform : Option Vec3q
  looped : Bool
  parameters : Option AudioParameters
  startup_delay : Option Nat
  group : Option Int
  deriving DecidableEq, Repr

/-- The asset store `Res<Assets<AudioSource>>`: which handles resolve. -/
def AssetStore := Nat → Option AudioSource

/-- The oracle for `bridge.play_channel`: given the number of play calls
already made this frame and the engine ids currently stored in the
mapping table, returns the new channel id (or `-1`). -/
def PlayAlloc := Nat → List EngineId → ChannelParams → EngineId

/-- The `bridge::ChannelParams` built in `play_audio` (plugin.rs lines
860-876) for one query row and its resolved `AudioSource`. -/
def playChannelParams (row : NewAudioRow) (sound : AudioSource) : ChannelParams :=
  let parameters := row.parameters.getD sound.params
  let position := row.transform.getD Vec3q.zero
  { file_id := sound.id
  , group_id := row.group.getD 0
  , priority := (parameters.priority : Int)
  , is_positional := row.transform.isSome
  , position := position
  , velocity := Vec3q.zero
  , min_distance := parameters.min_distance
  , max_distance := parameters.max_distance
  , looped := row.looped
  , volume := parameters.volume
  , pitch := parameters.speed
  , startup_delay := ((row.startup_delay.getD 0 : Nat) : Int) }

/-- Output of `play_audio`: the mapping resource, the `AudioInstance`
components inserted via `Commands`, the entities queued for
`despawn_recursive`, and the engine-call trace. -/
structure PlayOut where
  mapping : AudioInstanceMapping
  instances : List (Entity × AudioInstance)
  despawns : List Entity
  trace : List EngineOp
  deriving Repr

/-- Loop body of `play_audio` (plugin.rs lines 842-891), one query row at
a time.  `n` counts the `play_channel` calls made so far this frame (it
indexes the oracle so distinct calls may receive distinct replies even on
identical arguments). -/
def playAudioGo (sounds : AssetStore) (alloc : PlayAlloc) (alive : List Entity) :
    List NewAudioRow → Nat → AudioInstanceMapping → List (Entity × AudioInstance) →
    List Entity → List EngineOp → PlayOut
  | [], _, m, inst, d, tr => ⟨m, inst, d, tr⟩
  | row :: rest, n, m, inst, d, tr =>
    if row.entity ∈ alive then
      match sounds row.source with
      | none =>
        -- asset not loaded: warn, despawn non-looping, continue
        let d' := if row.looped then d else d ++ [row.entity]
        playAudioGo sounds alloc alive rest n m inst d' tr
      | some sound =>
        let p := playChannelParams row sound
        let instId := alloc n (m.ids.map Prod.snd) p
        let tr' := tr ++ [EngineOp.playChannel p]
        if instId = -1 then
          let d' := if row.looped then d else d ++ [row.entity]
          playAudioGo sounds alloc alive rest (n + 1) m inst d' tr'
        else
          let position := row.transform.getD Vec3q.zero
          playAudioGo sounds alloc alive rest (n + 1)
            ⟨ainsert row.entity instId m.ids, m.just_removed⟩
            (ainsert row.entity ⟨instId, position, row.source⟩ inst)
            d tr'
    else
      -- `commands.get_entity(entity)` failed: entity no longer exists
      playAudioGo sounds alloc alive rest n m inst d tr

/-- `play_audio` (plugin.rs lines 822-892). -/
def play_audio (sounds : AssetStore) (alloc : PlayAlloc) (alive : List Entity)
    (rows : List NewAudioRow) (m : AudioInstanceMapping)
    (inst : List (Entity × AudioInstance)) : PlayOut :=
  playAudioGo sounds alloc alive rows 0 m inst [] []

/-- Output of `stop_audio`: mapping, remaining `AudioInstance`
components, trace, and the entities for which the consistency error
"removing non-existent sound" was logged. -/
structure StopOut where
  mapping : AudioInstanceMapping
  instances : List (Entity × AudioInstance)
  trace : List EngineOp
  errors : List Entity
  deriving Repr

/-- Loop body of `stop_audio` (plugin.rs lines 903-918), one
`RemovedComponents<Handle<AudioSource>>` event at a time. -/
def stopAudioGo (alive : List Entity) :
    List Entity → AudioInstanceMapping → List (Entity × AudioInstance) →
    List EngineOp → List Entity → StopOut
  | [], m, inst, tr, errs => ⟨m, inst, tr, errs⟩
  | e :: rest, m, inst, tr, errs =>
    let just_removed := e ∈ m.just_removed
    let jr' := m.just_removed.erase e
    match alookup e m.ids with
    | some instId =>
        let inst' := if e ∈ alive then aremove e inst else inst
        stopAudioGo alive rest ⟨aremove e m.ids, jr'⟩ inst'
          (tr ++ [EngineOp.freeChannel instId]) errs
    | none =>
        stopAudioGo alive rest ⟨m.ids, jr'⟩ inst tr
          (if just_removed then errs else errs ++ [e])

/-- `stop_audio` (plugin.rs lines 895-919). -/
def stop_audio (alive : List Entity) (removed : List Entity)
    (m : AudioInstanceMapping) (inst : List (Entity × AudioInstance)) : StopOut :=
  stopAudioGo alive removed m inst [] []

/-- Output of `detect_stopped_audio`: mapping, despawned entities and
trace. -/
structure DetectOut where
  mapping : AudioInstanceMapping
  despawns : List Entity
  trace : List EngineOp
  deriving Repr

/-- Loop body of `detect_stopped_audio`'s `retain` (plugin.rs lines
927-937): entries whose channel stopped are dropped from the table, the
entity is despawned (when it still exists), the channel freed and the
entity recorded in `just_removed`. -/
def detectGo (isPlaying : EngineId → Bool) (alive : List Entity) :
    List (Entity × EngineId) → List (Entity × EngineId) → List Entity →
    List Entity → List EngineOp → DetectOut
  | [], kept, jr, d, tr => ⟨⟨kept, jr⟩, d, tr⟩
  | (e, instId) :: rest, kept, jr, d, tr =>
    if isPlaying instId then
      detectGo isPlaying alive rest (kept ++ [(e, instId)]) jr d tr
    else
      let d' := if e ∈ alive then d ++ [e] else d
      detectGo isPlaying alive rest kept (sinsert e jr) d'
        (tr ++ [EngineOp.freeChannel instId])

/-- `detect_stopped_audio` (plugin.rs lines 922-938). -/
def detect_stopped_audio (isPlaying : EngineId → Bool) (alive : List Entity)
    (m : AudioInstanceMapping) : DetectOut :=
  detectGo isPlaying alive m.ids [] m.just_removed [] []

/-- Per-entity world translations, as supplied by `GlobalTransform`
queries (`none` when the entity has no transform). -/
def Transforms := Entity → Option Vec3q

/-- `update_spatial_audio` (plugin.rs lines 940-966): for every entity
with both a `GlobalTransform` and an `AudioInstance`, push position and
finite-difference velocity, updating the stored previous position. -/
def update_spatial_audio (transforms : Transforms) (dt : ℚ) :
    List (Entity × AudioInstance) → List (Entity × AudioInstance) × List EngineOp
  | [] => ([], [])
  | (e, i) :: rest =>
    let (rest', ops) := update_spatial_audio transforms dt rest
    match transforms e with
    | none => ((e, i) :: rest', ops)
    | some position =>
      let velocity :=
        if dt ≠ 0 then (position.sub i.old_position).divQ dt else Vec3q.zero
      ((e, { i with old_position := position }) :: rest',
        EngineOp.updateChannel i.id
          { ChannelUpdateParams.default with
              set_position := true, position := position, velocity := velocity }
        :: ops)

/-- `update_audio_parameters` (plugin.rs lines 968-986): rows of the
`Changed<AudioParameters>` query (entities that also have an
`AudioInstance`). -/
def update_audio_parameters (changed : List (AudioParameters × AudioInstance)) :
    List EngineOp :=
  changed.map fun pi =>
    EngineOp.updateChannel pi.2.id
      { ChannelUpdateParams.default with
          set_volume_etc := true, volume := pi.1.volume
        , pitch := pi.1.speed, priority := (pi.1.priority : Int) }

--
-- geometry: `add_geometry`, `remove_geometry`
--

/-- A bevy `GlobalTransform` as an affine map: three linear rows plus a
translation; `apply` is `*transform * *vertex` from plugin.rs line 1011. -/
structure Affine3 where
  r1 : Vec3q
  r2 : Vec3q
  r3 : Vec3q
  t : Vec3q
  deriving DecidableEq, Repr

/-- Apply the affine transform to a point. -/
def Affine3.apply (a : Affine3) (v : Vec3q) : Vec3q :=
  ⟨a.r1.x * v.x + a.r1.y * v.y + a.r1.z * v.z + a.t.x
  , a.r2.x * v.x + a.r2.y * v.y + a.r2.z * v.z + a.t.y
  , a.r3.x * v.x + a.r3.y * v.y + a.r3.z * v.z + a.t.z⟩

/-- `AudioGeometryParams` component fields. -/
structure AudioGeometryParams where
  direct_occlusion : ℚ
  reverb_occlusion : ℚ
  deriving DecidableEq, Repr

/-- One row of the `Added<AudioGeometry>` query: entity, the component's
object-local polygon vertices and params, and the entity's
`GlobalTransform` at creation time. -/
structure NewGeometryRow where
  entity : Entity
  polygon_vertices : List (List Vec3q)
  params : AudioGeometryParams
  transform : Affine3
  deriving DecidableEq, Repr

/-- The `bridge::Geometry` built by `add_geometry` (plugin.rs lines
1002-1015): occlusions clamped to `[0, 1]`, every object-local vertex
pushed through the entity's world transform exactly once. -/
def mkGeometry (row : NewGeometryRow) : Geometry :=
  { direct_occlusion := clampQ row.params.direct_occlusion 0 1
  , reverb_occlusion := clampQ row.params.reverb_occlusion 0 1
  , polygons := row.polygon_vertices.map fun polygon =>
      polygon.map fun vertex => row.transform.apply vertex }

/-- Output of the geometry / reverb add and remove systems: the mapping
resource, the trace, and the entities for which an error was logged.
These systems take no `Commands`, so they despawn nothing and touch no
component. -/
structure GeoOut where
  mapping : List (Entity × EngineId)
  trace : List EngineOp
  errors : List Entity
  deriving Repr

/-- Loop body of `add_geometry` (plugin.rs lines 1001-1021).  `allocG` is
the oracle for `bridge.add_geometry`: it sees the ids currently stored in
the geometry table (so that the assumption "the engine never hands out a
currently bound id" is expressible) and the geometry being created. -/
def addGeometryGo (allocG : List EngineId → Geometry → EngineId) :
    List NewGeometryRow → List (Entity × EngineId) → List EngineOp →
    List Entity → GeoOut
  | [], m, tr, errs => ⟨m, tr, errs⟩
  | row :: rest, m, tr, errs =>
    let g := mkGeometry row
    let instId := allocG (m.map Prod.snd) g
    let tr' := tr ++ [EngineOp.addGeometry g]
    if instId = -1 then
      addGeometryGo allocG rest m tr' (errs ++ [row.entity])
    else
      addGeometryGo allocG rest (ainsert row.entity instId m) tr' errs

/-- `add_geometry` (plugin.rs lines 994-1022). -/
def add_geometry (allocG : List EngineId → Geometry → EngineId) (rows : List NewGeometryRow)
    (m : List (Entity × EngineId)) : GeoOut :=
  addGeometryGo allocG rows m [] []

/-- Loop body of `remove_geometry` (plugin.rs lines 1031-1036). -/
def removeGeometryGo :
    List Entity → List (Entity × EngineId) → List EngineOp → List Entity → GeoOut
  | [], m, tr, errs => ⟨m, tr, errs⟩
  | e :: rest, m, tr, errs =>
    match alookup e m with
    | some instId =>
        removeGeometryGo rest (aremove e m) (tr ++ [EngineOp.freeGeometry instId]) errs
    | none =>
        removeGeometryGo rest m tr (errs ++ [e])

/-- `remove_geometry` (plugin.rs lines 1024-1037). -/
def remove_geometry (removed : List Entity) (m : List (Entity × EngineId)) : GeoOut :=
  removeGeometryGo removed m [] []

--
-- reverb: `add_reverb`, `remove_reverb`
--

/-- `AudioReverbProps`. -/
structure AudioReverbProps where
  decay_time : ℚ
  early_delay : ℚ
  late_delay : ℚ
  hf_reference : ℚ
  hf_decay_ratio : ℚ
  diffusion : ℚ
  density : ℚ
  low_shelf_frequency : ℚ
  low_shelf_gain : ℚ
  high_cut : ℚ
  early_late_mix : ℚ
  wet_level : ℚ
  deriving DecidableEq, Repr

/-- One row of the `Added<AudioReverbSphere>` query. -/
structure NewReverbRow where
  entity : Entity
  min_distance : ℚ
  max_distance : ℚ
  props : AudioReverbProps
  translation : Vec3q
  deriving DecidableEq, Repr

/-- The `bridge::Reverb` built by `add_reverb` (plugin.rs lines
1053-1070). -/
def mkReverb (row : NewReverbRow) : Reverb :=
  { min_dist := row.min_distance
  , max_dist := row.max_distance
  , position := row.translation
  , decay_time := row.props.decay_time
  , early_delay := row.props.early_delay
  , late_delay := row.props.late_delay
  , hf_reference := row.props.hf_reference
  , hf_decay_ratio := row.props.hf_decay_ratio
  , diffusion := row.props.diffusion
  , density := row.props.density
  , low_shelf_frequency := row.props.low_shelf_frequency
  , low_shelf_gain := row.props.low_shelf_gain
  , high_cut := row.props.high_cut
  , early_late_mix := row.props.early_late_mix
  , wet_level := row.props.wet_level }

/-- Loop body of `add_reverb` (plugin.rs lines 1052-1076); `allocR` is
the oracle for `bridge.add_reverb`, shaped like `allocG`. -/
def addReverbGo (allocR : List EngineId → Reverb → EngineId) :
    List NewReverbRow → List (Entity × EngineId) → List EngineOp →
    List Entity → GeoOut
  | [], m, tr, errs => ⟨m, tr, errs⟩
  | row :: rest, m, tr, errs =>
    let r := mkReverb row
    let instId := allocR (m.map Prod.snd) r
    let tr' := tr ++ [EngineOp.addReverb r]
    if instId = -1 then
      addReverbGo allocR rest m tr' (errs ++ [row.entity])
    else
      addReverbGo allocR rest (ainsert row.entity instId m) tr' errs

/-- `add_reverb` (plugin.rs lines 1045-1077). -/
def add_reverb (allocR : List EngineId → Reverb → EngineId) (rows : List NewReverbRow)
    (m : List (Entity × EngineId)) : GeoOut :=
  addReverbGo allocR rows m [] []

/-- Loop body of `remove_reverb` (plugin.rs lines 1086-1091). -/
def removeReverbGo :
    List Entity → List (Entity × EngineId) → List EngineOp → List Entity → GeoOut
  | [], m, tr, errs => ⟨m, tr, errs⟩
  | e :: rest, m, tr, errs =>
    match alookup e m with
    | some instId =>
        removeReverbGo rest (aremove e m) (tr ++ [EngineOp.freeReverb instId]) errs
    | none =>
        removeReverbGo rest m tr (errs ++ [e])

/-- `remove_reverb` (plugin.rs lines 1079-1092). -/
def remove_reverb (removed : List Entity) (m : List (Entity × EngineId)) : GeoOut :=
  removeReverbGo removed m [] []

--
-- one frame of the `AudioSystem` set in `PostUpdate`
--

/-- The persistent state the audio systems carry across frames: living
entities, the three instance-mapping resources, the inserted
`AudioInstance` components, and `update_listener`'s `Local` state. -/
structure SysState where
  alive : List Entity
  audio : AudioInstanceMapping
  instances : List (Entity × AudioInstance)
  geometry : List (Entity × EngineId)
  reverb : List (Entity × EngineId)
  listener : ListenerData
  deriving Repr

/-- State at app startup: empty tables (`init_resource` defaults). -/
def initState : SysState :=
  { alive := [], audio := ⟨[], []⟩, instances := [], geometry := []
  , reverb := [], listener := ListenerData.default }

/-- Everything one frame reads from the outside world: query rows and
removal events from the scene graph, the asset store, the opaque
engine's replies, time, and the settings resource.  `spawned` lists
entities created since the previous frame. -/
structure FrameInput where
  spawned : List Entity
  newAudio : List NewAudioRow
  removedAudio : List Entity
  sounds : AssetStore
  alloc : PlayAlloc
  isPlaying : EngineId → Bool
  transforms : Transforms
  dt : ℚ
  listenerQ : Option ListenerQuery
  settings : AudioSettings
  settingsChanged : Bool
  changedParams : List (AudioParameters × AudioInstance)
  newGeometry : List NewGeometryRow
  removedGeometry : List Entity
  allocG : List EngineId → Geometry → EngineId
  newReverb : List NewReverbRow
  removedReverb : List Entity
  allocR : List EngineId → Reverb → EngineId

/-- Apply queued `despawn_recursive` commands: the entities disappear,
and with them their components.  Mapping-table entries are *not*
touched here — they are resources, cleaned up by later reconciliation
passes. -/
def applyDespawns (d : List Entity) (alive : List Entity)
    (inst : List (Entity × AudioInstance)) :
    List Entity × List (Entity × AudioInstance) :=
  (alive.filter (· ∉ d), inst.filter (fun p => p.1 ∉ d))

/-- One frame of the `AudioSystem` set.  Bevy only partially orders
these systems (`play_audio` and `update_engine_settings` and
`update_listener` before `update_system`, which runs last); this model
fixes one compatible order and the claims proved below do not depend on
the order of the unordered ones.  Command queues are flushed after each
system, as Bevy does between conflicting systems.  Returns the next
state and the engine-call trace of the whole frame. -/
def frameStep (f : FrameInput) (s : SysState) : SysState × List EngineOp :=
  let alive0 := s.alive ++ f.spawned.filter (· ∉ s.alive)
  -- play_audio
  let po := play_audio f.sounds f.alloc alive0 f.newAudio s.audio s.instances
  let (alive1, inst1) := applyDespawns po.despawns alive0 po.instances
  -- stop_audio
  let so := stop_audio alive1 f.removedAudio po.mapping inst1
  -- detect_stopped_audio
  let dco := detect_stopped_audio f.isPlaying alive1 so.mapping
  let (alive2, inst2) := applyDespawns dco.despawns alive1 so.instances
  -- update_spatial_audio
  let (inst3, spatialOps) := update_spatial_audio f.transforms f.dt inst2
  -- update_audio_parameters
  let paramOps := update_audio_parameters f.changedParams
  -- update_engine_settings (run_if resource_changed)
  let settingsOps := if f.settingsChanged then update_engine_settings f.settings else []
  -- add_geometry / remove_geometry
  let ga := add_geometry f.allocG f.newGeometry s.geometry
  let gr := remove_geometry f.removedGeometry ga.mapping
  -- add_reverb / remove_reverb
  let ra := add_reverb f.allocR f.newReverb s.reverb
  let rr := remove_reverb f.removedReverb ra.mapping
  -- update_listener, then update_system (the engine advance)
  let (ld, listenerOps) := update_listener f.listenerQ f.dt s.listener
  ({ alive := alive2
   , audio := dco.mapping
   , instances := inst3
   , geometry := gr.mapping
   , reverb := rr.mapping
   , listener := ld },
   po.trace ++ so.trace ++ dco.trace ++ spatialOps ++ paramOps ++ settingsOps
     ++ ga.trace ++ gr.trace ++ ra.trace ++ rr.trace ++ listenerOps
     ++ [EngineOp.update])

/-- Run several frames. -/
def runFrames (s : SysState) : List FrameInput → SysState
  | [] => s
  | f :: rest => runFrames (frameStep f s).1 rest

/-- The assumption claim C1 grants about the opaque engine: a
`play_channel` call never returns a handle id that is currently bound in
the sound-instance table (it returns `-1` or an unbound id). -/
def FreshAlloc (alloc : PlayAlloc) : Prop :=
  ∀ n vs p, alloc n vs p = -1 ∨ alloc n vs p ∉ vs

/-- Frame inputs compatible with the engine's documented behaviour. -/
def FrameOk (f : FrameInput) : Prop := FreshAlloc f.alloc

/-- States reachable from startup through well-behaved frames. -/
inductive Reachable : SysState → Prop
  | init : Reachable initState
  | step {s f} : Reachable s → FrameOk f → Reachable (frameStep f s).1

--
-- association-list lemmas
--

theorem alookup_ainsert_self {V : Type} (k : Entity) (v : V) (l : List (Entity × V)) :
    alookup k (ainsert k v l) = some v := by
  simp [ainsert, alookup]

theorem alookup_aremove_ne {V : Type} {k k' : Entity} (l : List (Entity × V))
    (h : k' ≠ k) : alookup k (aremove k' l) = alookup k l := by
  induction l with
  | nil => rfl
  | cons p rest ih =>
      obtain ⟨a, b⟩ := p
      by_cases ha : a = k'
      · subst ha
        have : a ≠ k := h
        simp [aremove, List.filter_cons, alookup, this] at ih ⊢
        simpa [aremove] using ih
      · by_cases hk : a = k
        · simp [aremove, List.filter_cons, alookup, ha, hk, Ne.symm h]
        · simp [aremove, List.filter_cons, alookup, ha, hk] at ih ⊢
          simpa [aremove] using ih

theorem alookup_ainsert_ne {V : Type} {k k' : Entity} (v : V) (l : List (Entity × V))
    (h : k' ≠ k) : alookup k (ainsert k' v l) = alookup k l := by
  simp only [ainsert, alookup, if_neg h]
  exact alookup_aremove_ne l h

theorem alookup_aremove_self {V : Type} (k : Entity) (l : List (Entity × V)) :
    alookup k (aremove k l) = none := by
  induction l with
  | nil => rfl
  | cons p rest ih =>
      obtain ⟨a, b⟩ := p
      by_cases ha : a = k
      · simpa [aremove, List.filter_cons, ha] using ih
      · simpa [aremove, List.filter_cons, alookup, ha] using ih

theorem alookup_mem {V : Type} {k : Entity} {v : V} {l : List (Entity × V)}
    (h : alookup k l = some v) : (k, v) ∈ l := by
  induction l with
  | nil => simp [alookup] at h
  | cons p rest ih =>
      obtain ⟨a, b⟩ := p
      by_cases ha : a = k
      · subst ha
        simp [alookup] at h
        simp [h]
      · simp [alookup, ha] at h
        exact List.mem_cons_of_mem _ (ih h)

theorem mem_alookup {V : Type} {k : Entity} {v : V} {l : List (Entity × V)}
    (hk : (l.map Prod.fst).Nodup) (h : (k, v) ∈ l) : alookup k l = some v := by
  induction l with
  | nil => simp at h
  | cons p rest ih =>
      obtain ⟨a, b⟩ := p
      simp only [List.map_cons, List.nodup_cons] at hk
      rcases List.mem_cons.mp h with h1 | h1
      · cases h1
        simp [alookup]
      · have hak : a ≠ k := by
          intro hak
          exact hk.1 (hak ▸ (List.mem_map_of_mem Prod.fst h1))
        simp [alookup, hak]
        exact ih hk.2 h1

/-- Two entries with the same key agree when keys are unique. -/
theorem mem_unique_of_nodup_keys {V : Type} {k : Entity} {v1 v2 : V}
    {l : List (Entity × V)} (hk : (l.map Prod.fst).Nodup)
    (h1 : (k, v1) ∈ l) (h2 : (k, v2) ∈ l) : v1 = v2 := by
  have := List.inj_on_of_nodup_map hk h1 h2 rfl
  exact congrArg Prod.snd this

theorem aremove_sublist {V : Type} (k : Entity) (l : List (Entity × V)) :
    (aremove k l).Sublist l :=
  List.filter_sublist l

theorem keys_nodup_aremove {V : Type} (k : Entity) {l : List (Entity × V)}
    (h : (l.map Prod.fst).Nodup) : ((aremove k l).map Prod.fst).Nodup :=
  ((aremove_sublist k l).map Prod.fst).nodup h

theorem vals_nodup_aremove {V : Type} (k : Entity) {l : List (Entity × V)}
    (h : (l.map Prod.snd).Nodup) : ((aremove k l).map Prod.snd).Nodup :=
  ((aremove_sublist k l).map Prod.snd).nodup h

theorem not_mem_keys_aremove {V : Type} (k : Entity) (l : List (Entity × V)) :
    k ∉ (aremove k l).map Prod.fst := by
  intro hmem
  rcases List.mem_map.mp hmem with ⟨p, hp, hfst⟩
  have := List.of_mem_filter hp
  simp [hfst] at this

theorem keys_nodup_ainsert {V : Type} (k : Entity) (v : V) {l : List (Entity × V)}
    (h : (l.map Prod.fst).Nodup) : ((ainsert k v l).map Prod.fst).Nodup := by
  simp only [ainsert, List.map_cons, List.nodup_cons]
  exact ⟨not_mem_keys_aremove k l, keys_nodup_aremove k h⟩

theorem vals_nodup_ainsert {V : Type} {k : Entity} {v : V} {l : List (Entity × V)}
    (h : (l.map Prod.snd).Nodup) (hv : v ∉ l.map Prod.snd) :
    ((ainsert k v l).map Prod.snd).Nodup := by
  simp only [ainsert, List.map_cons, List.nodup_cons]
  refine ⟨fun hmem => hv ?_, vals_nodup_aremove k h⟩
  exact ((aremove_sublist k l).map Prod.snd).subset hmem

--
-- well-formedness of the sound-instance table
--

/-- The sound-instance table invariant: entity keys are unique (it is a
`HashMap`) and no two live entries store the same engine handle id. -/
def MappingOk (m : AudioInstanceMapping) : Prop :=
  (m.ids.map Prod.fst).Nodup ∧ (m.ids.map Prod.snd).Nodup

theorem playAudioGo_mappingOk {sounds : AssetStore} {alloc : PlayAlloc}
    {alive : List Entity} (hfresh : FreshAlloc alloc) :
    ∀ (rows : List NewAudioRow) (n : Nat) (m : AudioInstanceMapping)
      (inst : List (Entity × AudioInstance)) (d : List Entity) (tr : List EngineOp),
      MappingOk m → MappingOk (playAudioGo sounds alloc alive rows n m inst d tr).mapping := by
  intro rows
  induction rows with
  | nil => intro n m inst d tr h; exact h
  | cons row rest ih =>
      intro n m inst d tr h
      rw [playAudioGo]
      split
      · split
        · exact ih _ _ _ _ _ h
        · rename_i sound heq
          simp only
          split
          · exact ih _ _ _ _ _ h
          · rename_i hne
            refine ih _ _ _ _ _ ⟨keys_nodup_ainsert _ _ h.1, vals_nodup_ainsert h.2 ?_⟩
            rcases hfresh n (m.ids.map Prod.snd) (playChannelParams row sound) with hc | hc
            · exact absurd hc hne
            · exact hc
      · exact ih _ _ _ _ _ h

theorem stopAudioGo_mappingOk {alive : List Entity} :
    ∀ (removed : List Entity) (m : AudioInstanceMapping)
      (inst : List (Entity × AudioInstance)) (tr : List EngineOp) (errs : List Entity),
      MappingOk m → MappingOk (stopAudioGo alive removed m inst tr errs).mapping := by
  intro removed
  induction removed with
  | nil => intro m inst tr errs h; exact h
  | cons e rest ih =>
      intro m inst tr errs h
      rw [stopAudioGo]
      split
      · exact ih _ _ _ _ ⟨keys_nodup_aremove e h.1, vals_nodup_aremove e h.2⟩
      · exact ih _ _ _ _ h

theorem detectGo_ids (isPlaying : EngineId → Bool) (alive : List Entity) :
    ∀ (l kept : List (Entity × EngineId)) (jr d : List Entity) (tr : List EngineOp),
      (detectGo isPlaying alive l kept jr d tr).mapping.ids
        = kept ++ l.filter (fun p => isPlaying p.2) := by
  intro l
  induction l with
  | nil => intro kept jr d tr; simp [detectGo]
  | cons p rest ih =>
      intro kept jr d tr
      obtain ⟨e, instId⟩ := p
      rw [detectGo]
      by_cases hp : isPlaying instId
      · simp only [hp, if_true, List.filter_cons, ih]
        simp [hp]
      · simp only [hp, if_false, List.filter_cons, ih]
        simp [hp, ih]

theorem detect_mappingOk {isPlaying : EngineId → Bool} {alive : List Entity}
    {m : AudioInstanceMapping} (h : MappingOk m) :
    MappingOk (detect_stopped_audio isPlaying alive m).mapping := by
  have hids := detectGo_ids isPlaying alive m.ids [] m.just_removed [] []
  rw [detect_stopped_audio]
  constructor
  · rw [hids]
    simp only [List.nil_append]
    exact ((List.filter_sublist m.ids).map Prod.fst).nodup h.1
  · rw [hids]
    simp only [List.nil_append]
    exact ((List.filter_sublist m.ids).map Prod.snd).nodup h.2

theorem frameStep_mappingOk {f : FrameInput} {s : SysState} (hf : FrameOk f)
    (h : MappingOk s.audio) : MappingOk (frameStep f s).1.audio := by
  rw [frameStep]
  simp only
  exact detect_mappingOk (stopAudioGo_mappingOk _ _ _ _ _
    (playAudioGo_mappingOk hf _ _ _ _ _ _ h))

theorem reachable_mappingOk {s : SysState} (h : Reachable s) : MappingOk s.audio := by
  induction h with
  | init => exact ⟨List.nodup_nil, List.nodup_nil⟩
  | step _ hf ih => exact frameStep_mappingOk hf ih

/-- **C1**: at every reachable frame state, no two live entries of the
sound-instance mapping table (`AudioInstanceMapping.ids`) store the same
engine handle id: distinct entities bound in the table have distinct ids.
The `Reachable` relation already carries the claim's assumption that the
engine never returns a handle id that is currently bound (`FrameOk`). -/
theorem C1_no_shared_handle {s : SysState} (hs : Reachable s)
    (e1 e2 : Entity) (id1 id2 : EngineId) (hne : e1 ≠ e2)
    (h1 : alookup e1 s.audio.ids = some id1)
    (h2 : alookup e2 s.audio.ids = some id2) : id1 ≠ id2 := by
  have hok := reachable_mappingOk hs
  intro heq
  subst heq
  have m1 := alookup_mem h1
  have m2 := alookup_mem h2
  exact hne (congrArg Prod.fst (List.inj_on_of_nodup_map hok.2 m1 m2 rfl))

/-- A playback request row used by concrete witnesses. -/
def wRow (e : Entity) : NewAudioRow :=
  { entity := e, source := 5, transform := none, looped := true
  , parameters := none, startup_delay := none, group := none }

/-- A concrete settings value used by concrete witnesses. -/
def wSettings : AudioSettings :=
  { groups := [], master_volume := 1/2, enabled := true
  , engine := { doppler_scale := 33/100, distance_scale := 1
              , rolloff_scale := 1, max_world_size := 500 } }

/-- A quiescent frame input (no queries fire); concrete witnesses
override the fields they need. -/
def wFrame : FrameInput :=
  { spawned := []
  , newAudio := []
  , removedAudio := []
  , sounds := fun _ => none
  , alloc := fun _ _ _ => -1
  , isPlaying := fun _ => true
  , transforms := fun _ => none
  , dt := 0
  , listenerQ := none
  , settings := wSettings
  , settingsChanged := false
  , changedParams := []
  , newGeometry := [], removedGeometry := [], allocG := fun _ _ => -1
  , newReverb := [], removedReverb := [], allocR := fun _ _ => -1 }

/-- Witness frame for C1: two looping requests whose assets are loaded;
the engine allocates the first unbound id (call counter) each time. -/
def c1Frame : FrameInput :=
  { wFrame with
      spawned := [1, 2]
    , newAudio := [wRow 1, wRow 2]
    , sounds := fun _ => some ⟨7, AudioParameters.default⟩
    , alloc := fun n vs _ => if (n : Int) ∈ vs then -1 else (n : Int) }

theorem c1Frame_ok : FrameOk c1Frame := by
  unfold FrameOk FreshAlloc
  intro n vs p
  by_cases h : (n : Int) ∈ vs
  · exact Or.inl (by simp [c1Frame, wFrame, h])
  · exact Or.inr (by simp [c1Frame, wFrame, h])

theorem C1_no_shared_handle_witness :
    alookup 1 (frameStep c1Frame initState).1.audio.ids = some 0 ∧
    alookup 2 (frameStep c1Frame initState).1.audio.ids = some 1 ∧
    (0 : EngineId) ≠ 1 :=
  ⟨by decide, by decide,
   C1_no_shared_handle (Reachable.step Reachable.init c1Frame_ok)
     1 2 0 1 (by decide) (by decide) (by decide)⟩

/-- **C5 counterexample**: with configured bounds
`max_virtual_channels = 10000`, `max_active_channels = 8000`, the value
passed to the engine for active channels is `8000`: it exceeds both the
engine ceiling `4095` and the clamped virtual-channel value, refuting the
claim that the active bound is clamped to the (clamped) virtual bound and
to the ceiling. -/
theorem C5_counterexample :
    (buildInitParams ⟨10000, 8000⟩).max_virtual_channels = 4095 ∧
    (buildInitParams ⟨10000, 8000⟩).max_active_channels = 8000 ∧
    ¬((buildInitParams ⟨10000, 8000⟩).max_active_channels ≤
        (buildInitParams ⟨10000, 8000⟩).max_virtual_channels) ∧
    ¬((buildInitParams ⟨10000, 8000⟩).max_active_channels ≤ 4095) := by
  refine ⟨rfl, rfl, ?_, ?_⟩ <;> decide

/-- **C5 amended**: engine initialization clamps the maximum-virtual-
channels value to the engine ceiling `4095`; the maximum-active-channels
value is clamped only to the *configured* (unclamped) maximum-virtual-
channels value and is not clamped to the ceiling.  When the configured
virtual bound already respects the ceiling, the active bound does not
exceed the passed virtual bound. -/
theorem C5_amended (s : AudioEngineInitSettings) :
    (buildInitParams s).max_virtual_channels = min s.max_virtual_channels 4095 ∧
    (buildInitParams s).max_virtual_channels ≤ 4095 ∧
    (buildInitParams s).max_active_channels
      = min s.max_active_channels s.max_virtual_channels ∧
    (buildInitParams s).max_active_channels ≤ s.max_virtual_channels ∧
    (s.max_virtual_channels ≤ 4095 →
      (buildInitParams s).max_active_channels ≤ (buildInitParams s).max_virtual_channels) := by
  refine ⟨rfl, ?_, rfl, ?_, ?_⟩
  · exact min_le_right _ _
  · exact min_le_right _ _
  · intro h
    simp only [buildInitParams]
    omega

theorem C5_amended_witness :
    (1024 : Nat) ≤ 4095 ∧
    (buildInitParams ⟨1024, 32⟩).max_active_channels ≤
      (buildInitParams ⟨1024, 32⟩).max_virtual_channels :=
  ⟨by decide, (C5_amended ⟨1024, 32⟩).2.2.2.2 (by decide)⟩

/-- **C6**: the settings pass pushes, for every configured group, an
`update_group` call whose volume is `groupVolume * masterVolume`, where
the master volume is forced to `0` whenever `enabled` is false; in
particular with `enabled = false` every group is pushed volume `0`. -/
theorem C6_group_volume (s : AudioSettings) :
    (∀ g ∈ s.groups,
      EngineOp.updateGroup
        { user_id := g.1
        , volume := g.2.volume * (if s.enabled then s.master_volume else 0) }
        ∈ update_engine_settings s) ∧
    (s.enabled = false → ∀ g ∈ s.groups,
      EngineOp.updateGroup { user_id := g.1, volume := 0 }
        ∈ update_engine_settings s) := by
  constructor
  · intro g hg
    exact List.mem_append_left _ (List.mem_map_of_mem _ hg)
  · intro hoff g hg
    have h := List.mem_append_left
      ([EngineOp.updateEngine
        { doppler_scale := s.engine.doppler_scale
        , distance_scale := s.engine.distance_scale
        , rolloff_scale := s.engine.rolloff_scale
        , max_world_size := s.engine.max_world_size }])
      (List.mem_map_of_mem
        (fun g : Int × AudioGroupParameters =>
          EngineOp.updateGroup
            { user_id := g.1
            , volume := g.2.volume * (if s.enabled then s.master_volume else 0) }) hg)
    simpa [update_engine_settings, hoff] using h

/-- Scenario C of the spec, concretely: group volume `0.5`, master
`0.8`, `enabled = true` pushes `0.4`; with `enabled = false` the same
group is pushed `0`. -/
theorem C6_group_volume_witness :
    EngineOp.updateGroup { user_id := 3, volume := 2/5 }
      ∈ update_engine_settings
          { groups := [(3, ⟨1/2⟩)], master_volume := 4/5, enabled := true
          , engine := wSettings.engine } ∧
    EngineOp.updateGroup { user_id := 3, volume := 0 }
      ∈ update_engine_settings
          { groups := [(3, ⟨1/2⟩)], master_volume := 4/5, enabled := false
          , engine := wSettings.engine } := by
  constructor
  · have h := (C6_group_volume
      { groups := [(3, ⟨1/2⟩)], master_volume := 4/5, enabled := true
      , engine := wSettings.engine }).1 (3, ⟨1/2⟩) (List.Mem.head _)
    have e : (2/5 : ℚ) = 1/2 * (if true then (4/5 : ℚ) else 0) := by norm_num
    rw [e]
    exact h
  · exact (C6_group_volume
      { groups := [(3, ⟨1/2⟩)], master_volume := 4/5, enabled := false
      , engine := wSettings.engine }).2 rfl (3, ⟨1/2⟩) (List.Mem.head _)

theorem update_spatial_audio_mem (transforms : Transforms) (dt : ℚ) :
    ∀ (inst : List (Entity × AudioInstance)) (e : Entity) (i : AudioInstance)
      (pos : Vec3q), (e, i) ∈ inst → transforms e = some pos →
      EngineOp.updateChannel i.id
        { ChannelUpdateParams.default with
            set_position := true, position := pos
          , velocity := if dt ≠ 0 then (pos.sub i.old_position).divQ dt else Vec3q.zero }
        ∈ (update_spatial_audio transforms dt inst).2 := by
  intro inst
  induction inst with
  | nil => intro e i pos h; simp at h
  | cons p rest ih =>
      intro e i pos hmem hpos
      obtain ⟨e', i'⟩ := p
      rcases List.mem_cons.mp hmem with h1 | h1
      · obtain ⟨he, hi⟩ := Prod.mk.injEq .. ▸ h1
        subst he
        subst hi
        rw [update_spatial_audio]
        simp only [hpos]
        cases update_spatial_audio transforms dt rest with
        | mk rest' ops => exact List.mem_cons_self _ _
      · have hrec := ih e i pos h1 hpos
        rw [update_spatial_audio]
        cases hr : update_spatial_audio transforms dt rest with
        | mk rest' ops =>
            rw [hr] at hrec
            cases ht : transforms e' with
            | none => simpa [ht] using hrec
            | some position' => simp only [ht]; exact List.mem_cons_of_mem _ hrec

/-- **C7**: with zero delta-time (first frame / paused) the velocity
pushed for the listener, and the velocity pushed for every bound spatial
sound instance, is exactly the zero vector (the division branch is not
taken); with nonzero delta-time the pushed velocity is
`(current - previous) / dt`, where `previous` is the stored old position
(defaulting to the current one for a listener seen for the first
time). -/
theorem C7_zero_dt_velocity (q : ListenerQuery) (dt : ℚ) (ld : ListenerData)
    (transforms : Transforms) (inst : List (Entity × AudioInstance)) :
    (dt = 0 →
      (∀ op ∈ (update_listener (some q) dt ld).2,
        op = EngineOp.updateListener
          { position := q.position, velocity := Vec3q.zero
          , forward := q.forward, up := q.up }) ∧
      (∀ e i pos, (e, i) ∈ inst → transforms e = some pos →
        EngineOp.updateChannel i.id
          { ChannelUpdateParams.default with
              set_position := true, position := pos, velocity := Vec3q.zero }
          ∈ (update_spatial_audio transforms dt inst).2)) ∧
    (dt ≠ 0 →
      (∀ op ∈ (update_listener (some q) dt ld).2,
        op = EngineOp.updateListener
          { position := q.position
          , velocity := (q.position.sub (ld.old_position.getD q.position)).divQ dt
          , forward := q.forward, up := q.up }) ∧
      (∀ e i pos, (e, i) ∈ inst → transforms e = some pos →
        EngineOp.updateChannel i.id
          { ChannelUpdateParams.default with
              set_position := true, position := pos
            , velocity := (pos.sub i.old_position).divQ dt }
          ∈ (update_spatial_audio transforms dt inst).2)) := by
  constructor
  · intro h0
    constructor
    · intro op hop
      simp [update_listener, h0] at hop
      simp [hop]
    · intro e i pos hmem hpos
      have := update_spatial_audio_mem transforms dt inst e i pos hmem hpos
      simpa [h0] using this
  · intro hne
    constructor
    · intro op hop
      simp [update_listener, hne] at hop
      simp [hop]
    · intro e i pos hmem hpos
      have := update_spatial_audio_mem transforms dt inst e i pos hmem hpos
      simpa [hne] using this

theorem C7_zero_dt_velocity_witness :
    (EngineOp.updateListener
      { position := ⟨1, 2, 3⟩, velocity := Vec3q.zero
      , forward := ⟨0, 0, -1⟩, up := ⟨0, 1, 0⟩ }
      ∈ (update_listener (some ⟨⟨1, 2, 3⟩, ⟨0, 0, -1⟩, ⟨0, 1, 0⟩⟩) 0
          ListenerData.default).2) ∧
    (EngineOp.updateChannel 4
      { ChannelUpdateParams.default with
          set_position := true, position := ⟨1, 2, 3⟩, velocity := Vec3q.zero }
      ∈ (update_spatial_audio (fun _ => some ⟨1, 2, 3⟩) 0
          [(9, ⟨4, ⟨0, 0, 0⟩, 5⟩)]).2) := by
  have h := C7_zero_dt_velocity ⟨⟨1, 2, 3⟩, ⟨0, 0, -1⟩, ⟨0, 1, 0⟩⟩ 0
    ListenerData.default (fun _ => some ⟨1, 2, 3⟩) [(9, ⟨4, ⟨0, 0, 0⟩, 5⟩)]
  obtain ⟨hz, -⟩ := h
  obtain ⟨hl, hs⟩ := hz rfl
  constructor
  · have hmem : EngineOp.updateListener
        { position := ⟨1, 2, 3⟩
        , velocity := if (0 : ℚ) ≠ 0 then
            (Vec3q.sub ⟨1, 2, 3⟩ ((ListenerData.default.old_position).getD ⟨1, 2, 3⟩)).divQ 0
          else Vec3q.zero
        , forward := ⟨0, 0, -1⟩, up := ⟨0, 1, 0⟩ }
        ∈ (update_listener (some ⟨⟨1, 2, 3⟩, ⟨0, 0, -1⟩, ⟨0, 1, 0⟩⟩) 0
            ListenerData.default).2 := by
      simp [update_listener]
    have := hl _ hmem
    rw [this] at hmem
    exact hmem
  · exact hs 9 ⟨4, ⟨0, 0, 0⟩, 5⟩ ⟨1, 2, 3⟩ (List.Mem.head _) rfl

/-- **C8**: running the external-removal pass (`stop_audio`) for an
object that is already unbound and not in the just-removed marker set
frees no engine handle (empty trace), leaves the mapping table and the
remaining components unchanged, and logs the "removing non-existent
sound" consistency error; the pass is a total function, so it cannot
panic. -/
theorem C8_removal_idempotent (alive : List Entity) (e : Entity)
    (m : AudioInstanceMapping) (inst : List (Entity × AudioInstance))
    (h1 : alookup e m.ids = none) (h2 : e ∉ m.just_removed) :
    stop_audio alive [e] m inst = ⟨m, inst, [], [e]⟩ := by
  obtain ⟨ids, jr⟩ := m
  rw [stop_audio, stopAudioGo]
  simp only at h1 h2
  simp only [h1, h2, if_false, List.erase_of_not_mem h2]
  rw [stopAudioGo]
  simp [h2]

theorem C8_removal_idempotent_witness :
    stop_audio [] [1] ⟨[(2, 5)], [3]⟩ [] = ⟨⟨[(2, 5)], [3]⟩, [], [], [1]⟩ :=
  C8_removal_idempotent [] 1 ⟨[(2, 5)], [3]⟩ [] (by decide) (by decide)

--
-- `detect_stopped_audio` lemmas
--

theorem mem_sinsert_self (e : Entity) (s : List Entity) : e ∈ sinsert e s := by
  by_cases h : e ∈ s <;> simp [sinsert, h]

theorem mem_sinsert_of_mem {x : Entity} (e : Entity) {s : List Entity} (h : x ∈ s) :
    x ∈ sinsert e s := by
  by_cases he : e ∈ s <;> simp [sinsert, he, h]

theorem sinsert_nodup {e : Entity} {s : List Entity} (h : s.Nodup) :
    (sinsert e s).Nodup := by
  by_cases he : e ∈ s <;> simp [sinsert, he, h]

theorem detectGo_jr_mono (isPlaying : EngineId → Bool) (alive : List Entity) :
    ∀ (l : List (Entity × EngineId)) (kept : List (Entity × EngineId))
      (jr d : List Entity) (tr : List EngineOp) (x : Entity), x ∈ jr →
      x ∈ (detectGo isPlaying alive l kept jr d tr).mapping.just_removed := by
  intro l
  induction l with
  | nil => intro kept jr d tr x h; simpa [detectGo] using h
  | cons p rest ih =>
      intro kept jr d tr x h
      obtain ⟨e, instId⟩ := p
      rw [detectGo]
      by_cases hp : isPlaying instId
      · simp only [hp, if_true]
        exact ih _ _ _ _ _ h
      · simp only [hp, if_false]
        exact ih _ _ _ _ _ (mem_sinsert_of_mem e h)

theorem detectGo_jr_mem (isPlaying : EngineId → Bool) (alive : List Entity) :
    ∀ (l : List (Entity × EngineId)) (kept : List (Entity × EngineId))
      (jr d : List Entity) (tr : List EngineOp) (e : Entity) (id : EngineId),
      (e, id) ∈ l → isPlaying id = false →
      e ∈ (detectGo isPlaying alive l kept jr d tr).mapping.just_removed := by
  intro l
  induction l with
  | nil => intro kept jr d tr e id h; simp at h
  | cons p rest ih =>
      intro kept jr d tr e id hmem hstop
      obtain ⟨e', instId⟩ := p
      rcases List.mem_cons.mp hmem with h1 | h1
      · obtain ⟨he, hi⟩ := Prod.mk.injEq .. ▸ h1
        subst he; subst hi
        rw [detectGo]
        simp only [hstop, if_false, Bool.false_eq_true]
        exact detectGo_jr_mono isPlaying alive _ _ _ _ _ _ (mem_sinsert_self e _)
      · rw [detectGo]
        by_cases hp : isPlaying instId
        · simp only [hp, if_true]
          exact ih _ _ _ _ _ _ h1 hstop
        · simp only [hp, if_false]
          exact ih _ _ _ _ _ _ h1 hstop

theorem detectGo_trace_mono (isPlaying : EngineId → Bool) (alive : List Entity) :
    ∀ (l : List (Entity × EngineId)) (kept : List (Entity × EngineId))
      (jr d : List Entity) (tr : List EngineOp) (op : EngineOp), op ∈ tr →
      op ∈ (detectGo isPlaying alive l kept jr d tr).trace := by
  intro l
  induction l with
  | nil => intro kept jr d tr op h; simpa [detectGo] using h
  | cons p rest ih =>
      intro kept jr d tr op h
      obtain ⟨e, instId⟩ := p
      rw [detectGo]
      by_cases hp : isPlaying instId
      · simp only [hp, if_true]
        exact ih _ _ _ _ _ h
      · simp only [hp, if_false]
        exact ih _ _ _ _ _ (List.mem_append_left _ h)

theorem detectGo_trace_free (isPlaying : EngineId → Bool) (alive : List Entity) :
    ∀ (l : List (Entity × EngineId)) (kept : List (Entity × EngineId))
      (jr d : List Entity) (tr : List EngineOp) (e : Entity) (id : EngineId),
      (e, id) ∈ l → isPlaying id = false →
      EngineOp.freeChannel id ∈ (detectGo isPlaying alive l kept jr d tr).trace := by
  intro l
  induction l with
  | nil => intro kept jr d tr e id h; simp at h
  | cons p rest ih =>
      intro kept jr d tr e id hmem hstop
      obtain ⟨e', instId⟩ := p
      rcases List.mem_cons.mp hmem with h1 | h1
      · obtain ⟨he, hi⟩ := Prod.mk.injEq .. ▸ h1
        subst he; subst hi
        rw [detectGo]
        simp only [hstop, if_false, Bool.false_eq_true]
        exact detectGo_trace_mono isPlaying alive _ _ _ _ _ _
          (List.mem_append_right _ (List.Mem.head _))
      · rw [detectGo]
        by_cases hp : isPlaying instId
        · simp only [hp, if_true]
          exact ih _ _ _ _ _ _ h1 hstop
        · simp only [hp, if_false]
          exact ih _ _ _ _ _ _ h1 hstop

theorem detectGo_despawn_mono (isPlaying : EngineId → Bool) (alive : List Entity) :
    ∀ (l : List (Entity × EngineId)) (kept : List (Entity × EngineId))
      (jr d : List Entity) (tr : List EngineOp) (x : Entity), x ∈ d →
      x ∈ (detectGo isPlaying alive l kept jr d tr).despawns := by
  intro l
  induction l with
  | nil => intro kept jr d tr x h; simpa [detectGo] using h
  | cons p rest ih =>
      intro kept jr d tr x h
      obtain ⟨e, instId⟩ := p
      rw [detectGo]
      by_cases hp : isPlaying instId
      · simp only [hp, if_true]
        exact ih _ _ _ _ _ h
      · simp only [hp, if_false]
        refine ih _ _ _ _ _ ?_
        by_cases he : e ∈ alive <;> simp [he, h]

theorem detectGo_despawn_mem (isPlaying : EngineId → Bool) (alive : List Entity) :
    ∀ (l : List (Entity × EngineId)) (kept : List (Entity × EngineId))
      (jr d : List Entity) (tr : List EngineOp) (e : Entity) (id : EngineId),
      (e, id) ∈ l → isPlaying id = false → e ∈ alive →
      e ∈ (detectGo isPlaying alive l kept jr d tr).despawns := by
  intro l
  induction l with
  | nil => intro kept jr d tr e id h; simp at h
  | cons p rest ih =>
      intro kept jr d tr e id hmem hstop halive
      obtain ⟨e', instId⟩ := p
      rcases List.mem_cons.mp hmem with h1 | h1
      · obtain ⟨he, hi⟩ := Prod.mk.injEq .. ▸ h1
        subst he; subst hi
        rw [detectGo]
        simp only [hstop, if_false, Bool.false_eq_true, halive, if_true]
        exact detectGo_despawn_mono isPlaying alive _ _ _ _ _ _
          (List.mem_append_right _ (List.Mem.head _))
      · rw [detectGo]
        by_cases hp : isPlaying instId
        · simp only [hp, if_true]
          exact ih _ _ _ _ _ _ h1 hstop halive
        · simp only [hp, if_false]
          exact ih _ _ _ _ _ _ h1 hstop halive

theorem detectGo_jr_nodup (isPlaying : EngineId → Bool) (alive : List Entity) :
    ∀ (l : List (Entity × EngineId)) (kept : List (Entity × EngineId))
      (jr d : List Entity) (tr : List EngineOp), jr.Nodup →
      (detectGo isPlaying alive l kept jr d tr).mapping.just_removed.Nodup := by
  intro l
  induction l with
  | nil => intro kept jr d tr h; simpa [detectGo] using h
  | cons p rest ih =>
      intro kept jr d tr h
      obtain ⟨e, instId⟩ := p
      rw [detectGo]
      by_cases hp : isPlaying instId
      · simp only [hp, if_true]
        exact ih _ _ _ _ h
      · simp only [hp, if_false]
        exact ih _ _ _ _ (sinsert_nodup h)

/-- Looking a key up in a filtered table finds nothing when the key's
unique entry fails the filter. -/
theorem alookup_filter_none {V : Type} [DecidableEq V] {e : Entity} {id : V}
    {l : List (Entity × V)} (p : Entity × V → Bool)
    (hkeys : (l.map Prod.fst).Nodup) (hmem : (e, id) ∈ l) (hp : p (e, id) = false) :
    alookup e (l.filter p) = none := by
  cases h : alookup e (l.filter p) with
  | none => rfl
  | some v =>
      have hv := alookup_mem h
      have hvl := List.mem_of_mem_filter hv
      have := mem_unique_of_nodup_keys hkeys hvl hmem
      subst this
      have := List.of_mem_filter hv
      rw [hp] at this
      exact absurd this (by simp)

/-- **C3**: when the engine reports a bound instance as no longer playing,
`detect_stopped_audio` removes its table entry, frees the engine handle,
records the entity in the just-removed marker set, and despawns the
entity; a subsequent `stop_audio` observation of the same entity performs
no second free (empty trace), reports no consistency error, and consumes
the marker. -/
theorem C3_engine_stop_despawn (isPlaying : EngineId → Bool)
    (alive alive' : List Entity) (m : AudioInstanceMapping)
    (inst : List (Entity × AudioInstance)) (e : Entity) (id : EngineId)
    (hmem : (e, id) ∈ m.ids) (hkeys : (m.ids.map Prod.fst).Nodup)
    (hjr : m.just_removed.Nodup)
    (hstop : isPlaying id = false) (halive : e ∈ alive) :
    alookup e (detect_stopped_audio isPlaying alive m).mapping.ids = none ∧
    EngineOp.freeChannel id ∈ (detect_stopped_audio isPlaying alive m).trace ∧
    e ∈ (detect_stopped_audio isPlaying alive m).mapping.just_removed ∧
    e ∈ (detect_stopped_audio isPlaying alive m).despawns ∧
    (stop_audio alive' [e] (detect_stopped_audio isPlaying alive m).mapping inst).trace
      = [] ∧
    (stop_audio alive' [e] (detect_stopped_audio isPlaying alive m).mapping inst).errors
      = [] ∧
    e ∉ (stop_audio alive' [e]
          (detect_stopped_audio isPlaying alive m).mapping inst).mapping.just_removed := by
  have hids := detectGo_ids isPlaying alive m.ids [] m.just_removed [] []
  have hnone : alookup e (detect_stopped_audio isPlaying alive m).mapping.ids = none := by
    rw [detect_stopped_audio, hids, List.nil_append]
    exact alookup_filter_none _ hkeys hmem (by simp [hstop])
  have hjrmem : e ∈ (detect_stopped_audio isPlaying alive m).mapping.just_removed :=
    detectGo_jr_mem isPlaying alive _ _ _ _ _ _ _ hmem hstop
  have hjrnodup : (detect_stopped_audio isPlaying alive m).mapping.just_removed.Nodup :=
    detectGo_jr_nodup isPlaying alive _ _ _ _ _ hjr
  have htr : EngineOp.freeChannel id ∈ (detect_stopped_audio isPlaying alive m).trace :=
    detectGo_trace_free isPlaying alive _ _ _ _ _ _ _ hmem hstop
  have hdsp : e ∈ (detect_stopped_audio isPlaying alive m).despawns :=
    detectGo_despawn_mem isPlaying alive _ _ _ _ _ _ _ hmem hstop halive
  cases hd : detect_stopped_audio isPlaying alive m with
  | mk dm dd dtr =>
      obtain ⟨dids, djr⟩ := dm
      rw [hd] at hnone hjrmem hjrnodup htr hdsp
      simp only at hnone hjrmem hjrnodup htr hdsp
      have hso : stop_audio alive' [e] ⟨dids, djr⟩ inst
          = ⟨⟨dids, djr.erase e⟩, inst, [], []⟩ := by
        rw [stop_audio, stopAudioGo]
        simp only [hnone, hjrmem, if_true]
        rw [stopAudioGo]
      refine ⟨hnone, htr, hjrmem, hdsp, ?_, ?_, ?_⟩
      · simp only [hso]
      · simp only [hso]
      · simp only [hso]
        intro hcontra
        exact absurd ((hjrnodup.mem_erase_iff).mp hcontra).1 (by simp)

theorem C3_engine_stop_despawn_witness :
    4 ∈ (detect_stopped_audio (fun _ => false) [4] ⟨[(4, 7)], []⟩).despawns ∧
    (stop_audio [] [4]
      (detect_stopped_audio (fun _ => false) [4] ⟨[(4, 7)], []⟩).mapping []).errors = [] := by
  have h := C3_engine_stop_despawn (fun _ => false) [4] [] ⟨[(4, 7)], []⟩ [] 4 7
    (List.Mem.head _) (by decide) (by decide) rfl (List.Mem.head _)
  exact ⟨h.2.2.2.1, h.2.2.2.2.2.1⟩

--
-- `play_audio` lemmas
--

/-- A playback request that cannot be created this frame: its backing
asset is not loaded, or every `play_channel` call the engine would answer
for it fails with `-1`. -/
def CreateBlocked (sounds : AssetStore) (alloc : PlayAlloc) (row : NewAudioRow) : Prop :=
  sounds row.source = none ∨
  ∃ snd, sounds row.source = some snd ∧
    ∀ n vs, alloc n vs (playChannelParams row snd) = -1

theorem not_mem_despawn_append {e x : Entity} {d : List Entity}
    (h2 : e ∉ d) (hne : x ≠ e) : e ∉ d ++ [x] := by
  intro hmem
  rcases List.mem_append.mp hmem with h | h
  · exact h2 h
  · exact hne (List.mem_singleton.mp h).symm

theorem playAudioGo_untouched {sounds : AssetStore} {alloc : PlayAlloc}
    {alive : List Entity} (e : Entity) :
    ∀ (rows : List NewAudioRow) (n : Nat) (m : AudioInstanceMapping)
      (inst : List (Entity × AudioInstance)) (d : List Entity) (tr : List EngineOp),
      (∀ r ∈ rows, r.entity ≠ e) →
      alookup e (playAudioGo sounds alloc alive rows n m inst d tr).mapping.ids
        = alookup e m.ids ∧
      (e ∈ (playAudioGo sounds alloc alive rows n m inst d tr).despawns ↔ e ∈ d) := by
  intro rows
  induction rows with
  | nil => intro n m inst d tr _; exact ⟨rfl, Iff.rfl⟩
  | cons row rest ih =>
      intro n m inst d tr hne
      have hrowne : row.entity ≠ e := hne row (List.Mem.head _)
      have hrest : ∀ r ∈ rest, r.entity ≠ e :=
        fun r hr => hne r (List.mem_cons_of_mem _ hr)
      rw [playAudioGo]
      split
      · split
        · by_cases hl : row.looped = true
          · simp only [hl, if_true]
            exact ih n m inst d tr hrest
          · simp only [hl, if_false]
            rcases ih n m inst (d ++ [row.entity]) tr hrest with ⟨h1, h2⟩
            refine ⟨h1, h2.trans ?_⟩
            simp [hrowne, Ne.symm hrowne]
        · rename_i sound heq
          simp only
          split
          · by_cases hl : row.looped = true
            · simp only [hl, if_true]
              exact ih (n + 1) m inst d _ hrest
            · simp only [hl, if_false]
              rcases ih (n + 1) m inst (d ++ [row.entity]) _ hrest with ⟨h1, h2⟩
              refine ⟨h1, h2.trans ?_⟩
              simp [hrowne, Ne.symm hrowne]
          · rcases ih (n + 1) ⟨ainsert row.entity _ m.ids, m.just_removed⟩
              (ainsert row.entity _ inst) d _ hrest with ⟨h1, h2⟩
            refine ⟨h1.trans ?_, h2⟩
            exact alookup_ainsert_ne _ _ hrowne
      · exact ih n m inst d tr hrest

theorem playAudioGo_blocked {sounds : AssetStore} {alloc : PlayAlloc}
    {alive : List Entity} (e : Entity) :
    ∀ (rows : List NewAudioRow) (n : Nat) (m : AudioInstanceMapping)
      (inst : List (Entity × AudioInstance)) (d : List Entity) (tr : List EngineOp),
      alookup e m.ids = none → e ∉ d →
      (∀ r ∈ rows, r.entity = e → r.looped = true ∧ CreateBlocked sounds alloc r) →
      alookup e (playAudioGo sounds alloc alive rows n m inst d tr).mapping.ids = none ∧
      e ∉ (playAudioGo sounds alloc alive rows n m inst d tr).despawns := by
  intro rows
  induction rows with
  | nil => intro n m inst d tr h1 h2 _; exact ⟨h1, h2⟩
  | cons row rest ih =>
      intro n m inst d tr h1 h2 hblocked
      have hrest : ∀ r ∈ rest, r.entity = e → r.looped = true ∧ CreateBlocked sounds alloc r :=
        fun r hr => hblocked r (List.mem_cons_of_mem _ hr)
      rw [playAudioGo]
      split
      · by_cases hre : row.entity = e
        · obtain ⟨hloop, hcb⟩ := hblocked row (List.Mem.head _) hre
          rcases hcb with hnone | ⟨snd, hsnd, hfail⟩
          · rw [hnone]
            simp only [hloop, if_true]
            exact ih n m inst d tr h1 h2 hrest
          · rw [hsnd]
            simp only [hfail n (m.ids.map Prod.snd), if_pos rfl, hloop, if_true]
            exact ih (n + 1) m inst d _ h1 h2 hrest
        · split
          · by_cases hl : row.looped = true
            · simp only [hl, if_true]
              exact ih n m inst d tr h1 h2 hrest
            · simp only [hl, if_false]
              exact ih n m inst _ tr h1 (not_mem_despawn_append h2 hre) hrest
          · rename_i sound heq
            simp only
            split
            · by_cases hl : row.looped = true
              · simp only [hl, if_true]
                exact ih (n + 1) m inst d _ h1 h2 hrest
              · simp only [hl, if_false]
                exact ih (n + 1) m inst _ _ h1 (not_mem_despawn_append h2 hre) hrest
            · refine ih (n + 1) _ _ d _ ?_ h2 hrest
              simpa [alookup_ainsert_ne _ _ hre] using h1
      · exact ih n m inst d tr h1 h2 hrest

theorem playAudioGo_fail_row {sounds : AssetStore} {alloc : PlayAlloc}
    {alive : List Entity} {row : NewAudioRow} {snd : AudioSource}
    (hsnd : sounds row.source = some snd)
    (hfail : ∀ n vs, alloc n vs (playChannelParams row snd) = -1)
    (halive : row.entity ∈ alive) :
    ∀ (rows : List NewAudioRow) (n : Nat) (m : AudioInstanceMapping)
      (inst : List (Entity × AudioInstance)) (d : List Entity) (tr : List EngineOp),
      row ∈ rows → (rows.map NewAudioRow.entity).Nodup →
      alookup row.entity m.ids = none → row.entity ∉ d →
      alookup row.entity (playAudioGo sounds alloc alive rows n m inst d tr).mapping.ids
        = none ∧
      (row.entity ∈ (playAudioGo sounds alloc alive rows n m inst d tr).despawns
        ↔ row.looped = false) := by
  intro rows
  induction rows with
  | nil => intro n m inst d tr hmem; simp at hmem
  | cons r rest ih =>
      intro n m inst d tr hmem hnodup h1 h2
      simp only [List.map_cons, List.nodup_cons] at hnodup
      rcases List.mem_cons.mp hmem with hhead | htail
      · subst hhead
        have hrestne : ∀ r' ∈ rest, r'.entity ≠ row.entity := by
          intro r' hr' hcontra
          exact hnodup.1 (hcontra ▸ List.mem_map_of_mem NewAudioRow.entity hr')
        rw [playAudioGo]
        simp only [halive, if_true, hsnd]
        rw [if_pos (hfail n (m.ids.map Prod.snd))]
        by_cases hl : row.looped = true
        · rw [if_pos hl]
          rcases playAudioGo_untouched row.entity rest (n + 1) m inst d _ hrestne
            with ⟨hu1, hu2⟩
          refine ⟨h1 ▸ hu1, ?_⟩
          rw [hu2]
          simp [h2, hl]
        · rw [if_neg hl]
          rcases playAudioGo_untouched row.entity rest (n + 1) m inst
            (d ++ [row.entity]) _ hrestne with ⟨hu1, hu2⟩
          refine ⟨h1 ▸ hu1, ?_⟩
          rw [hu2]
          have hl' : row.looped = false := by simpa using hl
          simp [hl']
      · have hrne : r.entity ≠ row.entity := by
          intro hcontra
          exact hnodup.1 (hcontra ▸ List.mem_map_of_mem NewAudioRow.entity htail)
        rw [playAudioGo]
        split
        · split
          · by_cases hl : r.looped = true
            · simp only [hl, if_true]
              exact ih n m inst d tr htail hnodup.2 h1 h2
            · simp only [hl, if_false]
              exact ih n m inst _ tr htail hnodup.2 h1
                (not_mem_despawn_append h2 hrne)
          · rename_i sound heq
            simp only
            split
            · by_cases hl : r.looped = true
              · simp only [hl, if_true]
                exact ih (n + 1) m inst d _ htail hnodup.2 h1 h2
              · simp only [hl, if_false]
                exact ih (n + 1) m inst _ _ htail hnodup.2 h1
                  (not_mem_despawn_append h2 hrne)
            · refine ih (n + 1) _ _ d _ htail hnodup.2 ?_ h2
              simpa [alookup_ainsert_ne _ _ hrne] using h1
        · exact ih n m inst d tr htail hnodup.2 h1 h2

/-- **C4**: when the engine's `play` call fails with `-1` for a request,
`play_audio` creates no mapping-table entry for the entity; if the
request is non-looping the entity is despawned within the same creation
pass, and if it is looping the entity is not despawned. -/
theorem C4_play_failure (sounds : AssetStore) (alloc : PlayAlloc)
    (alive : List Entity) (rows : List NewAudioRow) (m : AudioInstanceMapping)
    (inst : List (Entity × AudioInstance)) (row : NewAudioRow) (snd : AudioSource)
    (hmem : row ∈ rows) (hnodup : (rows.map NewAudioRow.entity).Nodup)
    (halive : row.entity ∈ alive)
    (hsnd : sounds row.source = some snd)
    (hfail : ∀ n vs, alloc n vs (playChannelParams row snd) = -1)
    (h0 : alookup row.entity m.ids = none) :
    alookup row.entity
      (play_audio sounds alloc alive rows m inst).mapping.ids = none ∧
    (row.looped = false →
      row.entity ∈ (play_audio sounds alloc alive rows m inst).despawns) ∧
    (row.looped = true →
      row.entity ∉ (play_audio sounds alloc alive rows m inst).despawns) := by
  rcases playAudioGo_fail_row hsnd hfail halive rows 0 m inst [] []
    hmem hnodup h0 (by simp) with ⟨h1, h2⟩
  refine ⟨h1, fun hnl => h2.mpr hnl, fun hl hin => ?_⟩
  have hf := h2.mp hin
  rw [hl] at hf
  exact Bool.noConfusion hf

theorem C4_play_failure_witness :
    1 ∈ (play_audio (fun _ => some ⟨7, AudioParameters.default⟩) (fun _ _ _ => -1) [1, 2]
          [⟨1, 5, none, false, none, none, none⟩, ⟨2, 5, none, true, none, none, none⟩]
          ⟨[], []⟩ []).despawns ∧
    2 ∉ (play_audio (fun _ => some ⟨7, AudioParameters.default⟩) (fun _ _ _ => -1) [1, 2]
          [⟨1, 5, none, false, none, none, none⟩, ⟨2, 5, none, true, none, none, none⟩]
          ⟨[], []⟩ []).despawns ∧
    alookup 1 (play_audio (fun _ => some ⟨7, AudioParameters.default⟩) (fun _ _ _ => -1) [1, 2]
          [⟨1, 5, none, false, none, none, none⟩, ⟨2, 5, none, true, none, none, none⟩]
          ⟨[], []⟩ []).mapping.ids = none := by
  have h1 := C4_play_failure (fun _ => some ⟨7, AudioParameters.default⟩) (fun _ _ _ => -1)
    [1, 2] [⟨1, 5, none, false, none, none, none⟩, ⟨2, 5, none, true, none, none, none⟩]
    ⟨[], []⟩ [] ⟨1, 5, none, false, none, none, none⟩ ⟨7, AudioParameters.default⟩
    (List.Mem.head _) (by decide) (List.Mem.head _) rfl (fun _ _ => rfl) rfl
  have h2 := C4_play_failure (fun _ => some ⟨7, AudioParameters.default⟩) (fun _ _ _ => -1)
    [1, 2] [⟨1, 5, none, false, none, none, none⟩, ⟨2, 5, none, true, none, none, none⟩]
    ⟨[], []⟩ [] ⟨2, 5, none, true, none, none, none⟩ ⟨7, AudioParameters.default⟩
    (List.Mem.tail _ (List.Mem.head _)) (by decide) (List.Mem.tail _ (List.Mem.head _))
    rfl (fun _ _ => rfl) rfl
  exact ⟨h1.2.1 rfl, h2.2.2 rfl, h1.1⟩

--
-- frame-level persistence lemmas (claim C2)
--

theorem alookup_none_not_mem {V : Type} {e : Entity} {v : V} {l : List (Entity × V)}
    (h : alookup e l = none) : (e, v) ∉ l := by
  intro hmem
  induction l with
  | nil => simp at hmem
  | cons p rest ih =>
      obtain ⟨a, b⟩ := p
      rcases List.mem_cons.mp hmem with h1 | h1
      · obtain ⟨ha, hb⟩ := Prod.mk.injEq .. ▸ h1
        subst ha
        simp [alookup] at h
      · by_cases ha : a = e
        · simp [alookup, ha] at h
        · simp [alookup, ha] at h
          exact ih h h1

theorem alookup_filter_of_none {V : Type} {e : Entity} {l : List (Entity × V)}
    (p : Entity × V → Bool) (h : alookup e l = none) :
    alookup e (l.filter p) = none := by
  cases hl : alookup e (l.filter p) with
  | none => rfl
  | some v =>
      exact absurd (List.mem_of_mem_filter (alookup_mem hl)) (alookup_none_not_mem h)

theorem alookup_aremove_of_none {V : Type} {e : Entity} (k : Entity)
    {l : List (Entity × V)} (h : alookup e l = none) :
    alookup e (aremove k l) = none :=
  alookup_filter_of_none _ h

theorem stopAudioGo_lookup_none {alive : List Entity} {e : Entity} :
    ∀ (removed : List Entity) (m : AudioInstanceMapping)
      (inst : List (Entity × AudioInstance)) (tr : List EngineOp) (errs : List Entity),
      alookup e m.ids = none →
      alookup e (stopAudioGo alive removed m inst tr errs).mapping.ids = none := by
  intro removed
  induction removed with
  | nil => intro m inst tr errs h; exact h
  | cons x rest ih =>
      intro m inst tr errs h
      rw [stopAudioGo]
      split
      · exact ih _ _ _ _ (alookup_aremove_of_none x h)
      · exact ih _ _ _ _ h

theorem detectGo_despawn_src (isPlaying : EngineId → Bool) (alive : List Entity) :
    ∀ (l kept : List (Entity × EngineId)) (jr d : List Entity) (tr : List EngineOp)
      (x : Entity), x ∈ (detectGo isPlaying alive l kept jr d tr).despawns →
      x ∈ d ∨ ∃ id, (x, id) ∈ l := by
  intro l
  induction l with
  | nil => intro kept jr d tr x h; simp [detectGo] at h; exact Or.inl h
  | cons p rest ih =>
      intro kept jr d tr x h
      obtain ⟨e', instId⟩ := p
      rw [detectGo] at h
      by_cases hp : isPlaying instId
      · simp only [hp, if_true] at h
        rcases ih _ _ _ _ _ h with h1 | ⟨id, h1⟩
        · exact Or.inl h1
        · exact Or.inr ⟨id, List.mem_cons_of_mem _ h1⟩
      · simp only [hp, if_false] at h
        rcases ih _ _ _ _ _ h with h1 | ⟨id, h1⟩
        · by_cases he : e' ∈ alive
          · simp [he] at h1
            rcases h1 with h1 | h1
            · exact Or.inl h1
            · exact Or.inr ⟨instId, by simp [h1]⟩
          · simp [he] at h1
            exact Or.inl h1
        · exact Or.inr ⟨id, List.mem_cons_of_mem _ h1⟩

theorem frameStep_not_bound {f : FrameInput} {s : SysState} (e : Entity)
    (h0 : alookup e s.audio.ids = none) (ha : e ∈ s.alive)
    (hrows : ∀ r ∈ f.newAudio, r.entity = e →
      r.looped = true ∧ CreateBlocked f.sounds f.alloc r) :
    alookup e (frameStep f s).1.audio.ids = none ∧ e ∈ (frameStep f s).1.alive := by
  rw [frameStep]
  simp only [applyDespawns]
  constructor
  · rw [detect_stopped_audio, detectGo_ids, List.nil_append]
    apply alookup_filter_of_none
    exact stopAudioGo_lookup_none _ _ _ _ _
      (playAudioGo_blocked e f.newAudio 0 s.audio s.instances [] [] h0 (by simp) hrows).1
  · simp only [List.mem_filter]
    refine ⟨⟨List.mem_append_left _ ha, ?_⟩, ?_⟩
    · simp only [decide_eq_true_eq]
      exact (playAudioGo_blocked e f.newAudio 0 s.audio s.instances [] [] h0
        (by simp) hrows).2
    · simp only [decide_eq_true_eq]
      intro hd
      rcases detectGo_despawn_src f.isPlaying _ _ _ _ _ _ _ hd with h1 | ⟨id, h1⟩
      · simp at h1
      · exact alookup_none_not_mem
          (stopAudioGo_lookup_none _ _ _ _ _
            (playAudioGo_blocked e f.newAudio 0 s.audio s.instances [] [] h0
              (by simp) hrows).1)
          h1

/-- **C2 amended**: a looping playback request whose backing asset is not
ready, or whose `play_channel` calls fail with `-1`, is left unbound by
the creation pass and its entity is not despawned — but it is **not**
retried: `play_audio` only ever sees newly added request components
(Bevy's `Added` filter fires once per addition), so over any run of
frames in which the request is not re-added the entity stays alive and
unbound and the sound is never created (hence never duplicated), even
after the asset becomes ready or the engine recovers. -/
theorem C2_creation_not_retried (e : Entity) :
    ∀ (fs : List FrameInput) (s : SysState),
      alookup e s.audio.ids = none → e ∈ s.alive →
      (∀ f ∈ fs, ∀ r ∈ f.newAudio, r.entity = e →
        r.looped = true ∧ CreateBlocked f.sounds f.alloc r) →
      alookup e (runFrames s fs).audio.ids = none ∧ e ∈ (runFrames s fs).alive := by
  intro fs
  induction fs with
  | nil => intro s h0 ha _; exact ⟨h0, ha⟩
  | cons f rest ih =>
      intro s h0 ha hfs
      rw [runFrames]
      rcases frameStep_not_bound e h0 ha (hfs f (List.Mem.head _)) with ⟨h1, h2⟩
      exact ih _ h1 h2 (fun f' hf' => hfs f' (List.mem_cons_of_mem _ hf'))

/-- First frame of the C2 counterexample: entity 1 spawns with a looping
request for asset 5, which is not loaded yet. -/
def c2f1 : FrameInput :=
  { wFrame with spawned := [1], newAudio := [wRow 1] }

/-- Second frame: the asset has finished loading, but the request
component is not newly added, so the creation query is empty. -/
def c2f2 : FrameInput :=
  { wFrame with sounds := fun k => if k = 5 then some ⟨7, AudioParameters.default⟩ else none }

/-- **C2 counterexample**: the claim says a deferred looping request "is
retried on the next frame, so that once the condition clears the sound is
created exactly once".  Concretely: entity 1's looping request for
not-yet-loaded asset 5 is skipped in frame 1 (entity alive, unbound); in
frame 2 the asset is ready, yet no table entry is ever created and no
`play_channel` call is ever issued in either frame — the sound is created
zero times, not exactly once. -/
theorem C2_counterexample :
    alookup 1 (frameStep c2f1 initState).1.audio.ids = none ∧
    1 ∈ (frameStep c2f1 initState).1.alive ∧
    c2f2.sounds 5 = some ⟨7, AudioParameters.default⟩ ∧
    alookup 1 (frameStep c2f2 (frameStep c2f1 initState).1).1.audio.ids = none ∧
    ((frameStep c2f1 initState).2
      ++ (frameStep c2f2 (frameStep c2f1 initState).1).2).all
        (fun op => !op.isPlayChannel) = true := by
  refine ⟨by decide, by decide, by simp [c2f2, wFrame], by decide, by decide⟩

theorem C2_creation_not_retried_witness :
    alookup 1 (runFrames ⟨[1], ⟨[], []⟩, [], [], [], ListenerData.default⟩ [c2f1]).audio.ids
      = none ∧
    1 ∈ (runFrames ⟨[1], ⟨[], []⟩, [], [], [], ListenerData.default⟩ [c2f1]).alive := by
  refine C2_creation_not_retried 1 [c2f1]
    ⟨[1], ⟨[], []⟩, [], [], [], ListenerData.default⟩ rfl (List.Mem.head _) ?_
  intro f hf r hr hre
  rcases List.mem_singleton.mp hf with rfl
  rcases List.mem_singleton.mp hr with rfl
  exact ⟨rfl, Or.inl rfl⟩

--
-- trace-shape lemmas: which engine calls each system can emit
--

theorem playAudioGo_trace_shape {sounds : AssetStore} {alloc : PlayAlloc}
    {alive : List Entity} :
    ∀ (rows : List NewAudioRow) (n : Nat) (m : AudioInstanceMapping)
      (inst : List (Entity × AudioInstance)) (d : List Entity) (tr : List EngineOp)
      (op : EngineOp), op ∈ (playAudioGo sounds alloc alive rows n m inst d tr).trace →
      op ∈ tr ∨ ∃ p, op = EngineOp.playChannel p := by
  intro rows
  induction rows with
  | nil => intro n m inst d tr op h; exact Or.inl h
  | cons row rest ih =>
      intro n m inst d tr op h
      rw [playAudioGo] at h
      split at h
      · split at h
        · exact ih _ _ _ _ _ _ h
        · rename_i sound heq
          simp only at h
          split at h <;>
          · rcases ih _ _ _ _ _ _ h with h1 | h1
            · rcases List.mem_append.mp h1 with h2 | h2
              · exact Or.inl h2
              · exact Or.inr ⟨_, List.mem_singleton.mp h2⟩
            · exact Or.inr h1
      · exact ih _ _ _ _ _ _ h

theorem stopAudioGo_trace_shape {alive : List Entity} :
    ∀ (removed : List Entity) (m : AudioInstanceMapping)
      (inst : List (Entity × AudioInstance)) (tr : List EngineOp) (errs : List Entity)
      (op : EngineOp), op ∈ (stopAudioGo alive removed m inst tr errs).trace →
      op ∈ tr ∨ ∃ id, op = EngineOp.freeChannel id := by
  intro removed
  induction removed with
  | nil => intro m inst tr errs op h; exact Or.inl h
  | cons x rest ih =>
      intro m inst tr errs op h
      rw [stopAudioGo] at h
      split at h
      · rcases ih _ _ _ _ _ h with h1 | h1
        · rcases List.mem_append.mp h1 with h2 | h2
          · exact Or.inl h2
          · exact Or.inr ⟨_, List.mem_singleton.mp h2⟩
        · exact Or.inr h1
      · exact ih _ _ _ _ _ h

theorem detectGo_trace_shape (isPlaying : EngineId → Bool) (alive : List Entity) :
    ∀ (l kept : List (Entity × EngineId)) (jr d : List Entity) (tr : List EngineOp)
      (op : EngineOp), op ∈ (detectGo isPlaying alive l kept jr d tr).trace →
      op ∈ tr ∨ ∃ id, op = EngineOp.freeChannel id := by
  intro l
  induction l with
  | nil => intro kept jr d tr op h; exact Or.inl h
  | cons p rest ih =>
      intro kept jr d tr op h
      obtain ⟨e', instId⟩ := p
      rw [detectGo] at h
      by_cases hp : isPlaying instId
      · simp only [hp, if_true] at h
        exact ih _ _ _ _ _ h
      · simp only [hp, if_false] at h
        rcases ih _ _ _ _ _ h with h1 | h1
        · rcases List.mem_append.mp h1 with h2 | h2
          · exact Or.inl h2
          · exact Or.inr ⟨_, List.mem_singleton.mp h2⟩
        · exact Or.inr h1

theorem update_spatial_audio_trace_shape (transforms : Transforms) (dt : ℚ) :
    ∀ (inst : List (Entity × AudioInstance)) (op : EngineOp),
      op ∈ (update_spatial_audio transforms dt inst).2 →
      ∃ id p, op = EngineOp.updateChannel id p := by
  intro inst
  induction inst with
  | nil => intro op h; simp [update_spatial_audio] at h
  | cons q rest ih =>
      intro op h
      obtain ⟨e', i'⟩ := q
      rw [update_spatial_audio] at h
      cases hr : update_spatial_audio transforms dt rest with
      | mk rest' ops =>
          have hops : (update_spatial_audio transforms dt rest).2 = ops := by rw [hr]
          rw [hr] at h
          simp only at h
          cases ht : transforms e' with
          | none =>
              rw [ht] at h
              simp only at h
              exact ih op (by rw [hops]; exact h)
          | some position =>
              rw [ht] at h
              simp only at h
              rcases List.mem_cons.mp h with h1 | h1
              · exact ⟨_, _, h1⟩
              · exact ih op (by rw [hops]; exact h1)

theorem update_audio_parameters_trace_shape
    (changed : List (AudioParameters × AudioInstance)) (op : EngineOp)
    (h : op ∈ update_audio_parameters changed) :
    ∃ id p, op = EngineOp.updateChannel id p := by
  rcases List.mem_map.mp h with ⟨pi, _, hop⟩
  exact ⟨_, _, hop.symm⟩

theorem update_engine_settings_trace_shape (s : AudioSettings) (op : EngineOp)
    (h : op ∈ update_engine_settings s) :
    (∃ p, op = EngineOp.updateGroup p) ∨ (∃ p, op = EngineOp.updateEngine p) := by
  rcases List.mem_append.mp h with h1 | h1
  · rcases List.mem_map.mp h1 with ⟨g, _, hop⟩
    exact Or.inl ⟨_, hop.symm⟩
  · exact Or.inr ⟨_, List.mem_singleton.mp h1⟩

theorem update_listener_trace_shape (q : Option ListenerQuery) (dt : ℚ)
    (ld : ListenerData) (op : EngineOp) (h : op ∈ (update_listener q dt ld).2) :
    ∃ p, op = EngineOp.updateListener p := by
  cases q with
  | none => exact ⟨_, List.mem_singleton.mp h⟩
  | some t => exact ⟨_, List.mem_singleton.mp h⟩

theorem addGeometryGo_trace_shape {allocG : List EngineId → Geometry → EngineId} :
    ∀ (rows : List NewGeometryRow) (m : List (Entity × EngineId))
      (tr : List EngineOp) (errs : List Entity) (op : EngineOp),
      op ∈ (addGeometryGo allocG rows m tr errs).trace →
      op ∈ tr ∨ ∃ row ∈ rows, op = EngineOp.addGeometry (mkGeometry row) := by
  intro rows
  induction rows with
  | nil => intro m tr errs op h; exact Or.inl h
  | cons row rest ih =>
      intro m tr errs op h
      rw [addGeometryGo] at h
      split at h <;>
      · rcases ih _ _ _ _ h with h1 | ⟨r, hr, hop⟩
        · rcases List.mem_append.mp h1 with h2 | h2
          · exact Or.inl h2
          · exact Or.inr ⟨row, List.Mem.head _, List.mem_singleton.mp h2⟩
        · exact Or.inr ⟨r, List.mem_cons_of_mem _ hr, hop⟩

theorem removeGeometryGo_trace_shape :
    ∀ (removed : List Entity) (m : List (Entity × EngineId))
      (tr : List EngineOp) (errs : List Entity) (op : EngineOp),
      op ∈ (removeGeometryGo removed m tr errs).trace →
      op ∈ tr ∨ ∃ e' id, e' ∈ removed ∧ (e', id) ∈ m ∧ op = EngineOp.freeGeometry id := by
  intro removed
  induction removed with
  | nil => intro m tr errs op h; exact Or.inl h
  | cons x rest ih =>
      intro m tr errs op h
      rw [removeGeometryGo] at h
      split at h
      · rename_i instId heq
        rcases ih _ _ _ _ h with h1 | ⟨e', id, he', hm, hop⟩
        · rcases List.mem_append.mp h1 with h2 | h2
          · exact Or.inl h2
          · exact Or.inr ⟨x, instId, List.Mem.head _, alookup_mem heq,
              List.mem_singleton.mp h2⟩
        · exact Or.inr ⟨e', id, List.mem_cons_of_mem _ he',
            List.mem_of_mem_filter hm, hop⟩
      · rcases ih _ _ _ _ h with h1 | ⟨e', id, he', hm, hop⟩
        · exact Or.inl h1
        · exact Or.inr ⟨e', id, List.mem_cons_of_mem _ he', hm, hop⟩

theorem addReverbGo_trace_shape {allocR : List EngineId → Reverb → EngineId} :
    ∀ (rows : List NewReverbRow) (m : List (Entity × EngineId))
      (tr : List EngineOp) (errs : List Entity) (op : EngineOp),
      op ∈ (addReverbGo allocR rows m tr errs).trace →
      op ∈ tr ∨ ∃ row ∈ rows, op = EngineOp.addReverb (mkReverb row) := by
  intro rows
  induction rows with
  | nil => intro m tr errs op h; exact Or.inl h
  | cons row rest ih =>
      intro m tr errs op h
      rw [addReverbGo] at h
      split at h <;>
      · rcases ih _ _ _ _ h with h1 | ⟨r, hr, hop⟩
        · rcases List.mem_append.mp h1 with h2 | h2
          · exact Or.inl h2
          · exact Or.inr ⟨row, List.Mem.head _, List.mem_singleton.mp h2⟩
        · exact Or.inr ⟨r, List.mem_cons_of_mem _ hr, hop⟩

theorem removeReverbGo_trace_shape :
    ∀ (removed : List Entity) (m : List (Entity × EngineId))
      (tr : List EngineOp) (errs : List Entity) (op : EngineOp),
      op ∈ (removeReverbGo removed m tr errs).trace →
      op ∈ tr ∨ ∃ id, op = EngineOp.freeReverb id := by
  intro removed
  induction removed with
  | nil => intro m tr errs op h; exact Or.inl h
  | cons x rest ih =>
      intro m tr errs op h
      rw [removeReverbGo] at h
      split at h
      · rcases ih _ _ _ _ h with h1 | h1
        · rcases List.mem_append.mp h1 with h2 | h2
          · exact Or.inl h2
          · exact Or.inr ⟨_, List.mem_singleton.mp h2⟩
        · exact Or.inr h1
      · exact ih _ _ _ _ h

--
-- geometry / reverb mapping lemmas
--

/-- The engine never hands out a geometry (or reverb) handle that is
currently bound in the corresponding table. -/
def FreshIdAlloc {R : Type} (alloc : List EngineId → R → EngineId) : Prop :=
  ∀ vs r, alloc vs r = -1 ∨ alloc vs r ∉ vs

/-- Two entries with the same stored id agree when ids are unique. -/
theorem mem_unique_of_nodup_vals {e1 e2 : Entity} {v : EngineId}
    {l : List (Entity × EngineId)} (hv : (l.map Prod.snd).Nodup)
    (h1 : (e1, v) ∈ l) (h2 : (e2, v) ∈ l) : e1 = e2 := by
  have := List.inj_on_of_nodup_map hv h1 h2 rfl
  exact congrArg Prod.fst this

theorem addGeometryGo_vals_nodup {allocG : List EngineId → Geometry → EngineId}
    (hfresh : FreshIdAlloc allocG) :
    ∀ (rows : List NewGeometryRow) (m : List (Entity × EngineId))
      (tr : List EngineOp) (errs : List Entity),
      (m.map Prod.snd).Nodup →
      ((addGeometryGo allocG rows m tr errs).mapping.map Prod.snd).Nodup := by
  intro rows
  induction rows with
  | nil => intro m tr errs h; exact h
  | cons row rest ih =>
      intro m tr errs h
      rw [addGeometryGo]
      split
      · exact ih _ _ _ h
      · rename_i hne
        refine ih _ _ _ (vals_nodup_ainsert h ?_)
        rcases hfresh (m.map Prod.snd) (mkGeometry row) with hc | hc
        · exact absurd hc hne
        · exact hc

theorem addGeometryGo_untouched (e : Entity)
    {allocG : List EngineId → Geometry → EngineId} :
    ∀ (rows : List NewGeometryRow) (m : List (Entity × EngineId))
      (tr : List EngineOp) (errs : List Entity),
      (∀ r ∈ rows, r.entity ≠ e) →
      alookup e (addGeometryGo allocG rows m tr errs).mapping = alookup e m ∧
      (e ∈ (addGeometryGo allocG rows m tr errs).errors ↔ e ∈ errs) := by
  intro rows
  induction rows with
  | nil => intro m tr errs _; exact ⟨rfl, Iff.rfl⟩
  | cons row rest ih =>
      intro m tr errs hne
      have hrowne : row.entity ≠ e := hne row (List.Mem.head _)
      have hrest : ∀ r ∈ rest, r.entity ≠ e :=
        fun r hr => hne r (List.mem_cons_of_mem _ hr)
      rw [addGeometryGo]
      split
      · rcases ih m _ (errs ++ [row.entity]) hrest with ⟨h1, h2⟩
        refine ⟨h1, h2.trans ?_⟩
        simp [hrowne, Ne.symm hrowne]
      · rcases ih (ainsert row.entity _ m) _ errs hrest with ⟨h1, h2⟩
        exact ⟨h1.trans (alookup_ainsert_ne _ _ hrowne), h2⟩

theorem addGeometryGo_fail_row {allocG : List EngineId → Geometry → EngineId}
    {row : NewGeometryRow}
    (hfail : ∀ vs, allocG vs (mkGeometry row) = -1) :
    ∀ (rows : List NewGeometryRow) (m : List (Entity × EngineId))
      (tr : List EngineOp) (errs : List Entity),
      row ∈ rows → (rows.map NewGeometryRow.entity).Nodup →
      alookup row.entity m = none →
      alookup row.entity (addGeometryGo allocG rows m tr errs).mapping = none ∧
      row.entity ∈ (addGeometryGo allocG rows m tr errs).errors := by
  intro rows
  induction rows with
  | nil => intro m tr errs hmem; simp at hmem
  | cons r rest ih =>
      intro m tr errs hmem hnodup h0
      simp only [List.map_cons, List.nodup_cons] at hnodup
      rcases List.mem_cons.mp hmem with hhead | htail
      · subst hhead
        have hrestne : ∀ r' ∈ rest, r'.entity ≠ row.entity := by
          intro r' hr' hcontra
          exact hnodup.1 (hcontra ▸ List.mem_map_of_mem NewGeometryRow.entity hr')
        rw [addGeometryGo]
        rw [if_pos (hfail (m.map Prod.snd))]
        rcases addGeometryGo_untouched row.entity rest m _ (errs ++ [row.entity])
          hrestne with ⟨h1, h2⟩
        exact ⟨h0 ▸ h1, h2.mpr (List.mem_append_right _ (List.Mem.head _))⟩
      · have hrne : r.entity ≠ row.entity := by
          intro hcontra
          exact hnodup.1 (hcontra ▸ List.mem_map_of_mem NewGeometryRow.entity htail)
        rw [addGeometryGo]
        split
        · exact ih m _ _ htail hnodup.2 h0
        · refine ih _ _ _ htail hnodup.2 ?_
          rw [alookup_ainsert_ne _ _ hrne]
          exact h0

theorem removeGeometryGo_lookup_ne (e : Entity) :
    ∀ (removed : List Entity) (m : List (Entity × EngineId))
      (tr : List EngineOp) (errs : List Entity), e ∉ removed →
      alookup e (removeGeometryGo removed m tr errs).mapping = alookup e m := by
  intro removed
  induction removed with
  | nil => intro m tr errs _; rfl
  | cons x rest ih =>
      intro m tr errs hne
      have hxe : x ≠ e := fun h => hne (h ▸ List.Mem.head _)
      have hrest : e ∉ rest := fun h => hne (List.mem_cons_of_mem _ h)
      rw [removeGeometryGo]
      split
      · exact (ih _ _ _ hrest).trans (alookup_aremove_ne _ hxe)
      · exact ih _ _ _ hrest

theorem removeGeometryGo_err (e : Entity) :
    ∀ (removed : List Entity) (m : List (Entity × EngineId))
      (tr : List EngineOp) (errs : List Entity),
      (alookup e m = none ∧ e ∈ removed) ∨ e ∈ errs →
      e ∈ (removeGeometryGo removed m tr errs).errors := by
  intro removed
  induction removed with
  | nil =>
      intro m tr errs h
      rcases h with ⟨_, h⟩ | h
      · simp at h
      · exact h
  | cons x rest ih =>
      intro m tr errs h
      rw [removeGeometryGo]
      rcases h with ⟨hnone, hmem⟩ | herr
      · by_cases hxe : x = e
        · subst hxe
          simp only [hnone]
          exact ih _ _ _ (Or.inr (List.mem_append_right _ (List.Mem.head _)))
        · have hrest : e ∈ rest := by
            rcases List.mem_cons.mp hmem with h1 | h1
            · exact absurd h1.symm hxe
            · exact h1
          split
          · exact ih _ _ _ (Or.inl ⟨(alookup_aremove_ne _ hxe).trans hnone, hrest⟩)
          · exact ih _ _ _ (Or.inl ⟨hnone, hrest⟩)
      · split
        · exact ih _ _ _ (Or.inr herr)
        · exact ih _ _ _ (Or.inr (List.mem_append_left _ herr))

theorem addReverbGo_untouched (e : Entity)
    {allocR : List EngineId → Reverb → EngineId} :
    ∀ (rows : List NewReverbRow) (m : List (Entity × EngineId))
      (tr : List EngineOp) (errs : List Entity),
      (∀ r ∈ rows, r.entity ≠ e) →
      alookup e (addReverbGo allocR rows m tr errs).mapping = alookup e m ∧
      (e ∈ (addReverbGo allocR rows m tr errs).errors ↔ e ∈ errs) := by
  intro rows
  induction rows with
  | nil => intro m tr errs _; exact ⟨rfl, Iff.rfl⟩
  | cons row rest ih =>
      intro m tr errs hne
      have hrowne : row.entity ≠ e := hne row (List.Mem.head _)
      have hrest : ∀ r ∈ rest, r.entity ≠ e :=
        fun r hr => hne r (List.mem_cons_of_mem _ hr)
      rw [addReverbGo]
      split
      · rcases ih m _ (errs ++ [row.entity]) hrest with ⟨h1, h2⟩
        refine ⟨h1, h2.trans ?_⟩
        simp [hrowne, Ne.symm hrowne]
      · rcases ih (ainsert row.entity _ m) _ errs hrest with ⟨h1, h2⟩
        exact ⟨h1.trans (alookup_ainsert_ne _ _ hrowne), h2⟩

theorem addReverbGo_fail_row {allocR : List EngineId → Reverb → EngineId}
    {row : NewReverbRow}
    (hfail : ∀ vs, allocR vs (mkReverb row) = -1) :
    ∀ (rows : List NewReverbRow) (m : List (Entity × EngineId))
      (tr : List EngineOp) (errs : List Entity),
      row ∈ rows → (rows.map NewReverbRow.entity).Nodup →
      alookup row.entity m = none →
      alookup row.entity (addReverbGo allocR rows m tr errs).mapping = none ∧
      row.entity ∈ (addReverbGo allocR rows m tr errs).errors := by
  intro rows
  induction rows with
  | nil => intro m tr errs hmem; simp at hmem
  | cons r rest ih =>
      intro m tr errs hmem hnodup h0
      simp only [List.map_cons, List.nodup_cons] at hnodup
      rcases List.mem_cons.mp hmem with hhead | htail
      · subst hhead
        have hrestne : ∀ r' ∈ rest, r'.entity ≠ row.entity := by
          intro r' hr' hcontra
          exact hnodup.1 (hcontra ▸ List.mem_map_of_mem NewReverbRow.entity hr')
        rw [addReverbGo]
        rw [if_pos (hfail (m.map Prod.snd))]
        rcases addReverbGo_untouched row.entity rest m _ (errs ++ [row.entity])
          hrestne with ⟨h1, h2⟩
        exact ⟨h0 ▸ h1, h2.mpr (List.mem_append_right _ (List.Mem.head _))⟩
      · have hrne : r.entity ≠ row.entity := by
          intro hcontra
          exact hnodup.1 (hcontra ▸ List.mem_map_of_mem NewReverbRow.entity htail)
        rw [addReverbGo]
        split
        · exact ih m _ _ htail hnodup.2 h0
        · refine ih _ _ _ htail hnodup.2 ?_
          rw [alookup_ainsert_ne _ _ hrne]
          exact h0

theorem removeReverbGo_err (e : Entity) :
    ∀ (removed : List Entity) (m : List (Entity × EngineId))
      (tr : List EngineOp) (errs : List Entity),
      (alookup e m = none ∧ e ∈ removed) ∨ e ∈ errs →
      e ∈ (removeReverbGo removed m tr errs).errors := by
  intro removed
  induction removed with
  | nil =>
      intro m tr errs h
      rcases h with ⟨_, h⟩ | h
      · simp at h
      · exact h
  | cons x rest ih =>
      intro m tr errs h
      rw [removeReverbGo]
      rcases h with ⟨hnone, hmem⟩ | herr
      · by_cases hxe : x = e
        · subst hxe
          simp only [hnone]
          exact ih _ _ _ (Or.inr (List.mem_append_right _ (List.Mem.head _)))
        · have hrest : e ∈ rest := by
            rcases List.mem_cons.mp hmem with h1 | h1
            · exact absurd h1.symm hxe
            · exact h1
          split
          · exact ih _ _ _ (Or.inl ⟨(alookup_aremove_ne _ hxe).trans hnone, hrest⟩)
          · exact ih _ _ _ (Or.inl ⟨hnone, hrest⟩)
      · split
        · exact ih _ _ _ (Or.inr herr)
        · exact ih _ _ _ (Or.inr (List.mem_append_left _ herr))

/-- **C10**: when the engine create call for a geometry (or reverb)
component fails with `-1`, no table entry is created and a creation error
is logged; `add_geometry`/`add_reverb` take no `Commands`, so they cannot
despawn the entity or remove the component (their outputs carry no
command effects at all) and the component remains.  A later removal of
the component then necessarily reports the "removing non-existent"
consistency error — unlike sound instances, the geometry and reverb
tables have no just-removed marker set (they are bare maps), so nothing
suppresses it. -/
theorem C10_create_fail_then_remove_error
    (allocG : List EngineId → Geometry → EngineId)
    (allocR : List EngineId → Reverb → EngineId)
    (rowsG : List NewGeometryRow) (mG : List (Entity × EngineId)) (rowG : NewGeometryRow)
    (rowsR : List NewReverbRow) (mR : List (Entity × EngineId)) (rowR : NewReverbRow)
    (removedG removedR : List Entity)
    (hmemG : rowG ∈ rowsG) (hnodupG : (rowsG.map NewGeometryRow.entity).Nodup)
    (hfailG : ∀ vs, allocG vs (mkGeometry rowG) = -1)
    (h0G : alookup rowG.entity mG = none)
    (hremG : rowG.entity ∈ removedG)
    (hmemR : rowR ∈ rowsR) (hnodupR : (rowsR.map NewReverbRow.entity).Nodup)
    (hfailR : ∀ vs, allocR vs (mkReverb rowR) = -1)
    (h0R : alookup rowR.entity mR = none)
    (hremR : rowR.entity ∈ removedR) :
    alookup rowG.entity (add_geometry allocG rowsG mG).mapping = none ∧
    rowG.entity ∈ (add_geometry allocG rowsG mG).errors ∧
    rowG.entity ∈ (remove_geometry removedG
      (add_geometry allocG rowsG mG).mapping).errors ∧
    alookup rowR.entity (add_reverb allocR rowsR mR).mapping = none ∧
    rowR.entity ∈ (add_reverb allocR rowsR mR).errors ∧
    rowR.entity ∈ (remove_reverb removedR
      (add_reverb allocR rowsR mR).mapping).errors := by
  rcases addGeometryGo_fail_row hfailG rowsG mG [] [] hmemG hnodupG h0G with ⟨hg1, hg2⟩
  rcases addReverbGo_fail_row hfailR rowsR mR [] [] hmemR hnodupR h0R with ⟨hr1, hr2⟩
  exact ⟨hg1, hg2,
    removeGeometryGo_err rowG.entity removedG _ [] [] (Or.inl ⟨hg1, hremG⟩),
    hr1, hr2,
    removeReverbGo_err rowR.entity removedR _ [] [] (Or.inl ⟨hr1, hremR⟩)⟩

theorem C10_create_fail_then_remove_error_witness :
    1 ∈ (remove_geometry [1]
      (add_geometry (fun _ _ => -1)
        [⟨1, [], ⟨0, 0⟩, ⟨⟨1, 0, 0⟩, ⟨0, 1, 0⟩, ⟨0, 0, 1⟩, ⟨0, 0, 0⟩⟩⟩] []).mapping).errors ∧
    2 ∈ (remove_reverb [2]
      (add_reverb (fun _ _ => -1)
        [⟨2, 1, 2, ⟨0, 0, 0, 0, 0, 0, 0, 0, 0, 0, 0, 0⟩, ⟨0, 0, 0⟩⟩] []).mapping).errors := by
  have h := C10_create_fail_then_remove_error (fun _ _ => -1) (fun _ _ => -1)
    [⟨1, [], ⟨0, 0⟩, ⟨⟨1, 0, 0⟩, ⟨0, 1, 0⟩, ⟨0, 0, 1⟩, ⟨0, 0, 0⟩⟩⟩] []
    ⟨1, [], ⟨0, 0⟩, ⟨⟨1, 0, 0⟩, ⟨0, 1, 0⟩, ⟨0, 0, 1⟩, ⟨0, 0, 0⟩⟩⟩
    [⟨2, 1, 2, ⟨0, 0, 0, 0, 0, 0, 0, 0, 0, 0, 0, 0⟩, ⟨0, 0, 0⟩⟩] []
    ⟨2, 1, 2, ⟨0, 0, 0, 0, 0, 0, 0, 0, 0, 0, 0, 0⟩, ⟨0, 0, 0⟩⟩
    [1] [2]
    (List.Mem.head _) (by simp) (fun _ => rfl) rfl (List.Mem.head _)
    (List.Mem.head _) (by simp) (fun _ => rfl) rfl (List.Mem.head _)
  exact ⟨h.2.2.1, h.2.2.2.2.2⟩

theorem addGeometryGo_trace_mono {allocG : List EngineId → Geometry → EngineId} :
    ∀ (rows : List NewGeometryRow) (m : List (Entity × EngineId))
      (tr : List EngineOp) (errs : List Entity) (op : EngineOp), op ∈ tr →
      op ∈ (addGeometryGo allocG rows m tr errs).trace := by
  intro rows
  induction rows with
  | nil => intro m tr errs op h; exact h
  | cons row rest ih =>
      intro m tr errs op h
      rw [addGeometryGo]
      split <;> exact ih _ _ _ _ (List.mem_append_left _ h)

theorem addGeometryGo_trace_mem {allocG : List EngineId → Geometry → EngineId} :
    ∀ (rows : List NewGeometryRow) (m : List (Entity × EngineId))
      (tr : List EngineOp) (errs : List Entity) (row : NewGeometryRow), row ∈ rows →
      EngineOp.addGeometry (mkGeometry row) ∈ (addGeometryGo allocG rows m tr errs).trace := by
  intro rows
  induction rows with
  | nil => intro m tr errs row h; simp at h
  | cons r rest ih =>
      intro m tr errs row hmem
      rcases List.mem_cons.mp hmem with hhead | htail
      · subst hhead
        rw [addGeometryGo]
        split <;> exact addGeometryGo_trace_mono _ _ _ _ _
          (List.mem_append_right _ (List.Mem.head _))
      · rw [addGeometryGo]
        split <;> exact ih _ _ _ _ htail

/-- **C9**: geometry is baked at creation.  (a) For every newly added
geometry component, the frame pushes one `add_geometry` call whose
polygon vertices are the object-local vertices pushed through the
entity's world transform exactly once, at creation time.  (b) For an
already-bound geometry object that is neither re-added nor removed this
frame, the whole frame — whatever the entity's transform now is, since
`f.transforms` is unconstrained — leaves its table entry unchanged, never
frees its handle, and every `add_geometry` call in the frame trace stems
from a newly added component (the bridge has no geometry-update operation
at all). -/
theorem C9_geometry_baked_at_creation (f : FrameInput) (s : SysState)
    (e : Entity) (g : EngineId)
    (hfresh : FreshIdAlloc f.allocG)
    (hvals : (s.geometry.map Prod.snd).Nodup)
    (hbound : alookup e s.geometry = some g)
    (hnew : ∀ r ∈ f.newGeometry, r.entity ≠ e)
    (hrem : e ∉ f.removedGeometry) :
    (∀ row ∈ f.newGeometry,
      EngineOp.addGeometry
        { direct_occlusion := clampQ row.params.direct_occlusion 0 1
        , reverb_occlusion := clampQ row.params.reverb_occlusion 0 1
        , polygons := row.polygon_vertices.map fun polygon =>
            polygon.map fun vertex => row.transform.apply vertex }
        ∈ (frameStep f s).2) ∧
    alookup e (frameStep f s).1.geometry = some g ∧
    EngineOp.freeGeometry g ∉ (frameStep f s).2 ∧
    (∀ gg, EngineOp.addGeometry gg ∈ (frameStep f s).2 →
      ∃ row ∈ f.newGeometry, gg = mkGeometry row) := by
  have hga : alookup e (add_geometry f.allocG f.newGeometry s.geometry).mapping
      = some g :=
    ((addGeometryGo_untouched e f.newGeometry s.geometry [] [] hnew).1).trans hbound
  have hganodup : ((add_geometry f.allocG f.newGeometry s.geometry).mapping.map
      Prod.snd).Nodup :=
    addGeometryGo_vals_nodup hfresh f.newGeometry s.geometry [] [] hvals
  refine ⟨?_, ?_, ?_, ?_⟩
  · intro row hrow
    rw [frameStep]
    simp only [applyDespawns, List.mem_append]
    have : EngineOp.addGeometry (mkGeometry row)
        ∈ (add_geometry f.allocG f.newGeometry s.geometry).trace :=
      addGeometryGo_trace_mem f.newGeometry s.geometry [] [] row hrow
    rw [mkGeometry] at this
    tauto
  · rw [frameStep]
    simp only [applyDespawns]
    exact (removeGeometryGo_lookup_ne e f.removedGeometry _ [] [] hrem).trans hga
  · rw [frameStep]
    simp only [applyDespawns, List.mem_append]
    intro h
    rcases h with ((((((((((h | h) | h) | h) | h) | h) | h) | h) | h) | h) | h) | h
    · rcases playAudioGo_trace_shape _ _ _ _ _ _ _ h with h1 | ⟨p, h1⟩
      · simp at h1
      · simp at h1
    · rcases stopAudioGo_trace_shape _ _ _ _ _ _ h with h1 | ⟨id, h1⟩
      · simp at h1
      · simp at h1
    · rcases detectGo_trace_shape _ _ _ _ _ _ _ _ h with h1 | ⟨id, h1⟩
      · simp at h1
      · simp at h1
    · rcases update_spatial_audio_trace_shape _ _ _ _ h with ⟨id, p, h1⟩
      simp at h1
    · rcases update_audio_parameters_trace_shape _ _ h with ⟨id, p, h1⟩
      simp at h1
    · split at h
      · rcases update_engine_settings_trace_shape _ _ h with ⟨p, h1⟩ | ⟨p, h1⟩
        · simp at h1
        · simp at h1
      · simp at h
    · rcases addGeometryGo_trace_shape _ _ _ _ _ h with h1 | ⟨row, _, h1⟩
      · simp at h1
      · simp at h1
    · rcases removeGeometryGo_trace_shape _ _ _ _ _ h with h1 | ⟨e', id, he', hm, h1⟩
      · simp at h1
      · have hidg : id = g := by
          have := h1
          simp only [EngineOp.freeGeometry.injEq] at this
          exact this.symm
        subst hidg
        have := mem_unique_of_nodup_vals hganodup hm (alookup_mem hga)
        subst this
        exact hrem he'
    · rcases addReverbGo_trace_shape _ _ _ _ _ h with h1 | ⟨row, _, h1⟩
      · simp at h1
      · simp at h1
    · rcases removeReverbGo_trace_shape _ _ _ _ _ h with h1 | ⟨id, h1⟩
      · simp at h1
      · simp at h1
    · rcases update_listener_trace_shape _ _ _ _ h with ⟨p, h1⟩
      simp at h1
    · simp at h
  · rw [frameStep]
    simp only [applyDespawns, List.mem_append]
    intro gg h
    rcases h with ((((((((((h | h) | h) | h) | h) | h) | h) | h) | h) | h) | h) | h
    · rcases playAudioGo_trace_shape _ _ _ _ _ _ _ h with h1 | ⟨p, h1⟩
      · simp at h1
      · simp at h1
    · rcases stopAudioGo_trace_shape _ _ _ _ _ _ h with h1 | ⟨id, h1⟩
      · simp at h1
      · simp at h1
    · rcases detectGo_trace_shape _ _ _ _ _ _ _ _ h with h1 | ⟨id, h1⟩
      · simp at h1
      · simp at h1
    · rcases update_spatial_audio_trace_shape _ _ _ _ h with ⟨id, p, h1⟩
      simp at h1
    · rcases update_audio_parameters_trace_shape _ _ h with ⟨id, p, h1⟩
      simp at h1
    · split at h
      · rcases update_engine_settings_trace_shape _ _ h with ⟨p, h1⟩ | ⟨p, h1⟩
        · simp at h1
        · simp at h1
      · simp at h
    · rcases addGeometryGo_trace_shape _ _ _ _ _ h with h1 | ⟨row, hrow, h1⟩
      · simp at h1
      · simp only [EngineOp.addGeometry.injEq] at h1
        exact ⟨row, hrow, h1⟩
    · rcases removeGeometryGo_trace_shape _ _ _ _ _ h with h1 | ⟨e', id, _, _, h1⟩
      · simp at h1
      · simp at h1
    · rcases addReverbGo_trace_shape _ _ _ _ _ h with h1 | ⟨row, _, h1⟩
      · simp at h1
      · simp at h1
    · rcases removeReverbGo_trace_shape _ _ _ _ _ h with h1 | ⟨id, h1⟩
      · simp at h1
      · simp at h1
    · rcases update_listener_trace_shape _ _ _ _ h with ⟨p, h1⟩
      simp at h1
    · simp at h

/-- Witness state for C9: entity 3 owns geometry handle 11. -/
def s9 : SysState :=
  { alive := [3], audio := ⟨[], []⟩, instances := [], geometry := [(3, 11)]
  , reverb := [], listener := ListenerData.default }

/-- Witness frame for C9: a different entity adds a geometry component,
and every entity's transform this frame is `(9, 9, 9)` — in particular
entity 3's transform has changed since its geometry was baked. -/
def f9 : FrameInput :=
  { wFrame with
      newGeometry := [⟨5, [[⟨1, 0, 0⟩], [⟨0, 1, 0⟩]], ⟨0, 0⟩
        , ⟨⟨1, 0, 0⟩, ⟨0, 1, 0⟩, ⟨0, 0, 1⟩, ⟨2, 0, 0⟩⟩⟩]
    , transforms := fun _ => some ⟨9, 9, 9⟩ }

theorem C9_geometry_baked_at_creation_witness :
    alookup 3 (frameStep f9 s9).1.geometry = some 11 ∧
    EngineOp.freeGeometry 11 ∉ (frameStep f9 s9).2 := by
  have h := C9_geometry_baked_at_creation f9 s9 3 11
    (fun _ _ => Or.inl rfl) (by simp [s9]) rfl
    (by intro r hr; rcases List.mem_singleton.mp (by simpa [f9, wFrame] using hr) with rfl; decide)
    (by simp [f9, wFrame])
  exact ⟨h.2.1, h.2.2.1⟩
